import Mathlib

/-! DMX512 receivers: a shallow embedding of the drivers and their frame properties.

The repository holds several DMX512 receiver variants.  Each one is embedded
here as pure state-passing functions over a record of the driver's variables:

* `HandleDriver`  : `src/Core/Src/dmx512.c` with `src/Core/Inc/dmx512.h`
* `DoubleBuffer`  : `src/DMX512_Receiver/Core/Src/dmx512.c`
* `SlotCounter`   : `src/DMX_Receiver/Core/Src/dmx.c` with `main.c`
* `BareMetal`     : `src/dmx_receiver/main.c`

Conventions of the embedding:

* a C byte array is a function `Nat → Nat` from index to stored byte; only the
  indices below the declared size belong to the array;
* `uint8_t` flags and bytes, `uint16_t` counters and `uint32_t` ticks are `Nat`;
  where the C arithmetic can wrap, the reduction modulo `2^w` is written out;
* a value read from the environment (`HAL_GetTick()`, the UART error bits, the
  received byte) is an explicit argument of the function that reads it.
-/

/-! ## Shared primitives -/

/-- Store of one element into a C array: `buf[i] = v`. -/
def store (buf : Nat → Nat) (i v : Nat) : Nat → Nat :=
  fun j => if j = i then v else buf j

/-- The C call `memset(buf, 0, n)`: the first `n` bytes become zero. -/
def memset0 (buf : Nat → Nat) (n : Nat) : Nat → Nat :=
  fun j => if j < n then 0 else buf j

/-- The C call `memcpy(dst, src, n)`: the first `n` bytes of `dst` are replaced. -/
def memcpy (dst src : Nat → Nat) (n : Nat) : Nat → Nat :=
  fun j => if j < n then src j else dst j

/-- Subtraction of two `uint32_t` values, `a - b` modulo `2^32`. -/
def sub32 (a b : Nat) : Nat :=
  (a % 2 ^ 32 + (2 ^ 32 - b % 2 ^ 32)) % 2 ^ 32

/-- The UART error bits the drivers test: framing, parity, noise, overrun.
Each field is one bit of the HAL error word (or of the status register). -/
structure UartError where
  fe : Bool
  pe : Bool
  ne : Bool
  ore : Bool
deriving DecidableEq

/-- A break on the line: framing error alone. -/
def UartError.framing : UartError :=
  { fe := true, pe := false, ne := false, ore := false }

/-- A line fault: parity error alone. -/
def UartError.parity : UartError :=
  { fe := false, pe := true, ne := false, ore := false }

/-! ## The handle driver (`src/Core/Src/dmx512.c`) -/

namespace HandleDriver

/-- The constant `DMX_MAX_CHANNELS` of `dmx512.h`. -/
def DMX_MAX_CHANNELS : Nat := 512

/-- The constant `DMX_START_CODE` of `dmx512.h`. -/
def DMX_START_CODE : Nat := 0x00

/-- The enum `DMX_StateTypeDef`. -/
inductive DMX_StateTypeDef where
  | DMX_STATE_IDLE
  | DMX_STATE_BREAK
  | DMX_STATE_START_CODE
  | DMX_STATE_DATA
  | DMX_STATE_ERROR
deriving DecidableEq

open DMX_StateTypeDef

/-- The struct `DMX_HandleTypeDef`; `huart` is the UART handle pointer
(`none` is `NULL`), `dmx_data` the 513-byte buffer. -/
structure DMX_HandleTypeDef where
  huart : Option Nat
  dmx_data : Nat → Nat
  channel_count : Nat
  current_channel : Nat
  state : DMX_StateTypeDef
  break_timestamp : Nat
  frame_complete : Nat
  break_detected : Nat

/-- The C type `HAL_StatusTypeDef`, as far as the driver returns it. -/
inductive HAL_StatusTypeDef where
  | HAL_OK
  | HAL_ERROR
deriving DecidableEq

/-- Embedding of `DMX_Init`: the status and the handle memory afterwards.
`hdmx` and `huart` are pointers, `none` is `NULL`. -/
def DMX_Init (hdmx : Option DMX_HandleTypeDef) (huart : Option Nat) :
    HAL_StatusTypeDef × Option DMX_HandleTypeDef :=
  match hdmx, huart with
  | some h, some u =>
    (HAL_StatusTypeDef.HAL_OK,
      some { h with
        huart := some u
        state := DMX_STATE_IDLE
        current_channel := 0
        channel_count := 0
        frame_complete := 0
        break_detected := 0
        break_timestamp := 0
        dmx_data := memset0 h.dmx_data 513 })
  | _, _ => (HAL_StatusTypeDef.HAL_ERROR, hdmx)

/-- Embedding of `DMX_DetectBreak`; `now` is the value of `HAL_GetTick()`. -/
def DMX_DetectBreak (hdmx : DMX_HandleTypeDef) (now : Nat) : Nat :=
  if hdmx.break_detected = 0 then 0
  else if sub32 now hdmx.break_timestamp ≥ 1 then 1
  else 0

/-- Embedding of `DMX_ProcessByte`; `now` is the value `HAL_GetTick()` returns
during the call.  The `default:` case of the switch has no enum value. -/
def DMX_ProcessByte (hdmx : DMX_HandleTypeDef) (data : Nat) (now : Nat) :
    DMX_HandleTypeDef :=
  match hdmx.state with
  | DMX_STATE_IDLE => hdmx
  | DMX_STATE_BREAK =>
    if DMX_DetectBreak hdmx now ≠ 0 then
      { hdmx with state := DMX_STATE_START_CODE, current_channel := 0, break_detected := 0 }
    else
      { hdmx with state := DMX_STATE_IDLE }
  | DMX_STATE_START_CODE =>
    if data = DMX_START_CODE then
      { hdmx with
        dmx_data := store hdmx.dmx_data 0 data
        current_channel := 1
        state := DMX_STATE_DATA }
    else
      { hdmx with state := DMX_STATE_IDLE }
  | DMX_STATE_DATA =>
    if hdmx.current_channel ≤ DMX_MAX_CHANNELS then
      let h1 : DMX_HandleTypeDef :=
        { hdmx with
          dmx_data := store hdmx.dmx_data hdmx.current_channel data
          current_channel := hdmx.current_channel + 1 }
      if h1.current_channel > 2 then
        { h1 with channel_count := h1.current_channel - 1, frame_complete := 1 }
      else h1
    else
      { hdmx with
        channel_count := DMX_MAX_CHANNELS
        frame_complete := 1
        state := DMX_STATE_IDLE }
  | DMX_STATE_ERROR => { hdmx with state := DMX_STATE_IDLE }

/-- Embedding of `DMX_UART_RxCpltCallback` on a non-null handle; `rx_buffer` is
the byte the UART delivered. -/
def DMX_UART_RxCpltCallback (hdmx : DMX_HandleTypeDef) (rx_buffer : Nat) (now : Nat) :
    DMX_HandleTypeDef :=
  DMX_ProcessByte hdmx rx_buffer now

/-- Embedding of `DMX_UART_ErrorCallback` on a non-null handle; `error` is the
result of `HAL_UART_GetError`, `now` the value of `HAL_GetTick()`. -/
def DMX_UART_ErrorCallback (hdmx : DMX_HandleTypeDef) (error : UartError) (now : Nat) :
    DMX_HandleTypeDef :=
  let h1 : DMX_HandleTypeDef :=
    if error.fe then
      { hdmx with break_detected := 1, break_timestamp := now, state := DMX_STATE_BREAK }
    else hdmx
  if error.pe || error.ne || error.ore then
    { h1 with state := DMX_STATE_ERROR }
  else h1

/-- Embedding of `DMX_IsFrameComplete`. -/
def DMX_IsFrameComplete (hdmx : Option DMX_HandleTypeDef) : Nat :=
  match hdmx with
  | none => 0
  | some h => h.frame_complete

/-- Embedding of `DMX_GetChannelData`. -/
def DMX_GetChannelData (hdmx : Option DMX_HandleTypeDef) (channel : Nat) : Nat :=
  match hdmx with
  | none => 0
  | some h =>
    if channel = 0 ∨ channel > DMX_MAX_CHANNELS then 0
    else h.dmx_data channel

/-- Embedding of the macro `DMX_GET_CHANNEL(hdmx, channel)`, which dereferences
`hdmx` without a null test. -/
def DMX_GET_CHANNEL (hdmx : DMX_HandleTypeDef) (channel : Nat) : Nat :=
  if channel > 0 ∧ channel ≤ DMX_MAX_CHANNELS then hdmx.dmx_data channel else 0

/-- Embedding of `DMX_ResetFrame` on a non-null handle. -/
def DMX_ResetFrame (hdmx : DMX_HandleTypeDef) : DMX_HandleTypeDef :=
  { hdmx with
    frame_complete := 0
    current_channel := 0
    channel_count := 0
    state := DMX_STATE_IDLE }

/-- A run of received bytes: each pair is the byte delivered to
`DMX_UART_RxCpltCallback` and the tick at which it is processed. -/
def receive (hdmx : DMX_HandleTypeDef) (bytes : List (Nat × Nat)) : DMX_HandleTypeDef :=
  bytes.foldl (fun h p => DMX_UART_RxCpltCallback h p.1 p.2) hdmx

/-- The reception of one frame head: a framing-error event at tick `t0`, the
byte `gap` that ends the mark-after-break at tick `t1`, and the start code
`sc` at tick `t2`. -/
def frameHead (hdmx : DMX_HandleTypeDef) (error : UartError) (t0 gap t1 sc t2 : Nat) :
    DMX_HandleTypeDef :=
  DMX_UART_RxCpltCallback
    (DMX_UART_RxCpltCallback (DMX_UART_ErrorCallback hdmx error t0) gap t1) sc t2

/-- The handle as a zero-initialised C object. -/
def zeroed : DMX_HandleTypeDef :=
  { huart := none
    dmx_data := fun _ => 0
    channel_count := 0
    current_channel := 0
    state := DMX_STATE_IDLE
    break_timestamp := 0
    frame_complete := 0
    break_detected := 0 }

/-- The handle as `DMX_Init` leaves it when called on a zero-initialised
handle with the UART handle at address 1. -/
def fresh : DMX_HandleTypeDef :=
  match (DMX_Init (some zeroed) (some 1)).2 with
  | some h => h
  | none => zeroed

end HandleDriver

/-! ## The double-buffer driver (`src/DMX512_Receiver/Core/Src/dmx512.c`) -/

namespace DoubleBuffer

/-- Modelled from the spec: the constant `DMX_CHANNELS`, which `dmx512.h` uses
and `main.h` (not among the sources) defines; the spec fixes the channel
capacity at 512. -/
def DMX_CHANNELS : Nat := 512

/-- Modelled from the spec: the constant `DMX_START_CODE` of the absent
`main.h`; the spec names `0x00` as the only accepted start code. -/
def DMX_START_CODE : Nat := 0x00

/-- The enum `DMX_State_t`. -/
inductive DMX_State_t where
  | DMX_STATE_IDLE
  | DMX_STATE_BREAK
  | DMX_STATE_MAB
  | DMX_STATE_START_CODE
  | DMX_STATE_DATA
deriving DecidableEq

open DMX_State_t

/-- The struct `DMX_Handle_t` of the global `dmx_handle`: `dmx_data` is the
published buffer, `new_dmx_data` the working buffer. -/
structure DMX_Handle_t where
  state : DMX_State_t
  channel_count : Nat
  dmx_data : Nat → Nat
  new_dmx_data : Nat → Nat
  data_received : Nat
  last_break_time : Nat
  break_detected : Nat

/-- Embedding of `DMX512_Reset`. -/
def DMX512_Reset (s : DMX_Handle_t) : DMX_Handle_t :=
  { s with state := DMX_STATE_IDLE, channel_count := 0, break_detected := 0 }

/-- Embedding of `DMX512_Init`, as far as it writes `dmx_handle`; the UART
configuration it performs is outside the decoder state. -/
def DMX512_Init (s : DMX_Handle_t) : DMX_Handle_t :=
  { s with
    state := DMX_STATE_IDLE
    channel_count := 0
    data_received := 0
    break_detected := 0
    last_break_time := 0
    dmx_data := memset0 s.dmx_data DMX_CHANNELS
    new_dmx_data := memset0 s.new_dmx_data DMX_CHANNELS }

/-- Embedding of `DMX512_Process`; `now` is the value of `HAL_GetTick()`. -/
def DMX512_Process (s : DMX_Handle_t) (now : Nat) : DMX_Handle_t :=
  let s1 : DMX_Handle_t := if sub32 now s.last_break_time > 1000 then DMX512_Reset s else s
  if s1.data_received ≠ 0 then
    { s1 with
      dmx_data := memcpy s1.dmx_data s1.new_dmx_data DMX_CHANNELS
      data_received := 0 }
  else s1

/-- Embedding of `DMX512_GetChannelValue`. -/
def DMX512_GetChannelValue (s : DMX_Handle_t) (channel : Nat) : Nat :=
  if channel > 0 ∧ channel ≤ DMX_CHANNELS then s.dmx_data (channel - 1) else 0

/-- Embedding of `DMX512_UART_RxCallback`; `now` is the value of
`HAL_GetTick()`.  The `default:` case covers the two states the switch does
not name. -/
def DMX512_UART_RxCallback (s : DMX_Handle_t) (data : Nat) (now : Nat) : DMX_Handle_t :=
  match s.state with
  | DMX_STATE_IDLE =>
    if s.break_detected ≠ 0 then
      { s with state := DMX_STATE_MAB, break_detected := 0, last_break_time := now }
    else s
  | DMX_STATE_MAB =>
    if data = DMX_START_CODE then
      { s with
        state := DMX_STATE_DATA
        channel_count := 0
        new_dmx_data := memset0 s.new_dmx_data DMX_CHANNELS }
    else DMX512_Reset s
  | DMX_STATE_DATA =>
    if s.channel_count < DMX_CHANNELS then
      let s1 : DMX_Handle_t :=
        { s with
          new_dmx_data := store s.new_dmx_data s.channel_count data
          channel_count := s.channel_count + 1 }
      if s1.channel_count ≥ 2 then { s1 with data_received := 1 } else s1
    else
      DMX512_Reset { s with data_received := 1 }
  | DMX_STATE_BREAK => DMX512_Reset s
  | DMX_STATE_START_CODE => DMX512_Reset s

/-- Embedding of `DMX512_UART_ErrorCallback`, as far as it writes
`dmx_handle`; `flags` are the UART status flags it tests.  Clearing the
overrun, noise and parity flags touches the UART only. -/
def DMX512_UART_ErrorCallback (s : DMX_Handle_t) (flags : UartError) : DMX_Handle_t :=
  if flags.fe then
    { s with break_detected := 1, state := DMX_STATE_IDLE }
  else s

/-- Embedding of `DMX512_CheckBreak`. -/
def DMX512_CheckBreak (s : DMX_Handle_t) (flags : UartError) : DMX_Handle_t :=
  if flags.fe then DMX512_UART_ErrorCallback s flags else s

/-- What can happen to the driver: a received byte, a UART error interrupt,
a call of `DMX512_Process` from the main loop. -/
inductive Event where
  | rx (data : Nat) (now : Nat)
  | error (flags : UartError)
  | process (now : Nat)

/-- One event applied to the driver state. -/
def step (s : DMX_Handle_t) (e : Event) : DMX_Handle_t :=
  match e with
  | Event.rx data now => DMX512_UART_RxCallback s data now
  | Event.error flags => DMX512_UART_ErrorCallback s flags
  | Event.process now => DMX512_Process s now

/-- A sequence of events applied in order. -/
def run (s : DMX_Handle_t) (es : List Event) : DMX_Handle_t :=
  es.foldl step s

/-- The events of a run of received bytes; each pair is a byte and the tick at
which it arrives. -/
def rxEvents (bytes : List (Nat × Nat)) : List Event :=
  bytes.map (fun p => Event.rx p.1 p.2)

/-- The global `dmx_handle` as a zero-initialised C object. -/
def zeroed : DMX_Handle_t :=
  { state := DMX_STATE_IDLE
    channel_count := 0
    dmx_data := fun _ => 0
    new_dmx_data := fun _ => 0
    data_received := 0
    last_break_time := 0
    break_detected := 0 }

/-- The driver state after `DMX512_Init` on the zero-initialised global. -/
def started : DMX_Handle_t :=
  DMX512_Init zeroed

/-- Whether an event is a call of `DMX512_Process`. -/
def Event.isProcess : Event → Bool
  | Event.process _ => true
  | _ => false

/-- Whether a sequence of events holds reception callbacks only, that is, no
call of `DMX512_Process`. -/
def receptionOnly (es : List Event) : Bool :=
  es.all (fun e => !Event.isProcess e)

/-- A trace that stops inside a frame: a break, the mark-gap byte, the start
code `0x00` and the data bytes 7 and 9. -/
def openFrameTrace : List Event :=
  [Event.error UartError.framing, Event.rx 0 0, Event.rx 0 0, Event.rx 7 0, Event.rx 9 0]

/-- The frames whose reception a trace has finalised, oldest first, each as
the contents of the working buffer at that moment.  In the words of the
property on half-written frames, the reception of a frame is finalised when
its 512th slot is stored, or when a break (an error interrupt with the
framing flag) arrives while the decoder is in `DMX_STATE_DATA`. -/
def finalisedFrames (s : DMX_Handle_t) : List Event → List (Nat → Nat)
  | [] => []
  | e :: es =>
    let done : Bool :=
      match e with
      | Event.rx _ _ =>
        decide (s.state = DMX_STATE_DATA ∧ s.channel_count < DMX_CHANNELS ∧
          (step s e).channel_count = DMX_CHANNELS)
      | Event.error flags => flags.fe && decide (s.state = DMX_STATE_DATA)
      | Event.process _ => false
    if done then (step s e).new_dmx_data :: finalisedFrames (step s e) es
    else finalisedFrames (step s e) es

end DoubleBuffer

/-! ## The slot-counter HAL driver (`src/DMX_Receiver/Core/Src/dmx.c`) -/

namespace SlotCounter

/-- The constant `DMX_CHANNEL` of `dmx.h`. -/
def DMX_CHANNEL : Nat := 2

/-- The constant `DMX_UNIVERSE_SIZE` of `dmx.h`. -/
def DMX_UNIVERSE_SIZE : Nat := 513

/-- The file-scope variables of `dmx.c`: the UART handle pointer, the slot
counter and the 513-byte buffer.  The byte `rx_byte` is written by the UART
before each callback and is an argument there. -/
structure State where
  huart_dmx : Nat
  dmx_slot : Nat
  dmx_buffer : Nat → Nat

/-- The variables as C initialises them. -/
def initial : State :=
  { huart_dmx := 0, dmx_slot := 0, dmx_buffer := fun _ => 0 }

/-- Embedding of `DMX_Init`. -/
def DMX_Init (s : State) (huart : Nat) : State :=
  { s with huart_dmx := huart }

/-- Embedding of `DMX_GetChannelLevel`. -/
def DMX_GetChannelLevel (s : State) (ch : Nat) : Nat :=
  if ch < DMX_UNIVERSE_SIZE then s.dmx_buffer ch else 0

/-- Embedding of `HAL_UART_RxCpltCallback`; the increment of the `uint16_t`
counter wraps at `2^16`. -/
def HAL_UART_RxCpltCallback (s : State) (huart : Nat) (rx_byte : Nat) : State :=
  if huart ≠ s.huart_dmx then s
  else
    let s1 : State := { s with dmx_slot := (s.dmx_slot + 1) % 2 ^ 16 }
    let s2 : State :=
      if s1.dmx_slot = 1 then s1
      else if s1.dmx_slot < DMX_UNIVERSE_SIZE then
        { s1 with dmx_buffer := store s1.dmx_buffer s1.dmx_slot rx_byte }
      else s1
    if s2.dmx_slot ≥ DMX_UNIVERSE_SIZE then { s2 with dmx_slot := 0 } else s2

/-- Embedding of `HAL_UART_ErrorCallback`; `errorCode` is `huart->ErrorCode`. -/
def HAL_UART_ErrorCallback (s : State) (huart : Nat) (errorCode : UartError) : State :=
  if huart ≠ s.huart_dmx then s
  else if errorCode.fe then { s with dmx_slot := 0 }
  else s

/-- The level the main loop of `main.c` reads in each round:
`DMX_GetChannelLevel(DMX_CHANNEL)`. -/
def mainLoopLevel (s : State) : Nat :=
  DMX_GetChannelLevel s DMX_CHANNEL

/-- A run of bytes delivered to the DMX UART, one per `HAL_UART_RxCpltCallback`. -/
def receive (s : State) (bytes : List Nat) : State :=
  bytes.foldl (fun st b => HAL_UART_RxCpltCallback st st.huart_dmx b) s

/-- An error interrupt of the DMX UART: `HAL_UART_ErrorCallback` on the
handle the driver was initialised with; it is a break when `errorCode` has
the framing bit. -/
def breakEvent (s : State) (errorCode : UartError) : State :=
  HAL_UART_ErrorCallback s s.huart_dmx errorCode

/-- The state when the main loop starts: `DMX_Init` called on the initial
variables with the UART handle at address 1. -/
def started : State :=
  DMX_Init initial 1

end SlotCounter

/-! ## Event sequences and store indices of the handle driver -/

namespace HandleDriver

open DMX_StateTypeDef

/-- The handle as `DMX_Init` leaves it when called with the non-null handle
`h0` and the non-null UART handle `u`. -/
def initialised (h0 : DMX_HandleTypeDef) (u : Nat) : DMX_HandleTypeDef :=
  match (DMX_Init (some h0) (some u)).2 with
  | some h => h
  | none => h0

/-- What can happen to a handle after `DMX_Init`: a byte processed by
`DMX_ProcessByte` at tick `now`, a call of `DMX_UART_ErrorCallback` with the
error word `error` at tick `now`, a call of `DMX_ResetFrame`. -/
inductive Event where
  | byte (data : Nat) (now : Nat)
  | error (error : UartError) (now : Nat)
  | reset

/-- One event applied to the handle. -/
def step (h : DMX_HandleTypeDef) (e : Event) : DMX_HandleTypeDef :=
  match e with
  | Event.byte data now => DMX_ProcessByte h data now
  | Event.error error now => DMX_UART_ErrorCallback h error now
  | Event.reset => DMX_ResetFrame h

/-- A sequence of events applied in order. -/
def run (h : DMX_HandleTypeDef) (es : List Event) : DMX_HandleTypeDef :=
  es.foldl step h

/-- The index of `dmx_data` that `DMX_ProcessByte` stores to, read off its
two assignments: `dmx_data[0]` in `DMX_STATE_START_CODE` on the start code
`0x00`, `dmx_data[current_channel]` in `DMX_STATE_DATA` under the guard
`current_channel <= DMX_MAX_CHANNELS`; `none` when the call stores nothing. -/
def DMX_ProcessByte_storeIndex (hdmx : DMX_HandleTypeDef) (data : Nat) : Option Nat :=
  match hdmx.state with
  | DMX_STATE_START_CODE => if data = DMX_START_CODE then some 0 else none
  | DMX_STATE_DATA =>
    if hdmx.current_channel ≤ DMX_MAX_CHANNELS then some hdmx.current_channel else none
  | _ => none

/-- The step of `DMX_ProcessByte` with its store checked against the 513
bytes of `dmx_data`: `none` is the out-of-range store. -/
def DMX_ProcessByte_checked (hdmx : DMX_HandleTypeDef) (data : Nat) (now : Nat) :
    Option DMX_HandleTypeDef :=
  match DMX_ProcessByte_storeIndex hdmx data with
  | some i => if i < 513 then some (DMX_ProcessByte hdmx data now) else none
  | none => some (DMX_ProcessByte hdmx data now)

/-- One event with the store of `DMX_ProcessByte` checked. -/
def stepChecked (h : DMX_HandleTypeDef) (e : Event) : Option DMX_HandleTypeDef :=
  match e with
  | Event.byte data now => DMX_ProcessByte_checked h data now
  | Event.error error now => some (DMX_UART_ErrorCallback h error now)
  | Event.reset => some (DMX_ResetFrame h)

/-- A sequence of events with every store checked; `none` as soon as one
store is out of range. -/
def runChecked (h : DMX_HandleTypeDef) : List Event → Option DMX_HandleTypeDef
  | [] => some h
  | e :: es =>
    match stepChecked h e with
    | some h1 => runChecked h1 es
    | none => none

end HandleDriver

/-! ## Event sequences and store indices of the slot-counter driver -/

namespace SlotCounter

/-- The two HAL callbacks as events; `huart` is the handle the HAL passes,
`rx_byte` the byte it has written, `errorCode` the error word of the handle. -/
inductive Event where
  | rx (huart : Nat) (rx_byte : Nat)
  | error (huart : Nat) (errorCode : UartError)

/-- One callback applied to the driver variables. -/
def step (s : State) (e : Event) : State :=
  match e with
  | Event.rx huart rx_byte => HAL_UART_RxCpltCallback s huart rx_byte
  | Event.error huart errorCode => HAL_UART_ErrorCallback s huart errorCode

/-- A sequence of callbacks applied in order. -/
def run (s : State) (es : List Event) : State :=
  es.foldl step s

/-- The index of `dmx_buffer` that `HAL_UART_RxCpltCallback` stores to, read
off its one assignment `dmx_buffer[dmx_slot] = rx_byte` and the tests that
guard it; `none` when the call stores nothing. -/
def HAL_UART_RxCpltCallback_storeIndex (s : State) (huart : Nat) : Option Nat :=
  if huart ≠ s.huart_dmx then none
  else if (s.dmx_slot + 1) % 2 ^ 16 = 1 then none
  else if (s.dmx_slot + 1) % 2 ^ 16 < DMX_UNIVERSE_SIZE then some ((s.dmx_slot + 1) % 2 ^ 16)
  else none

/-- The index of `dmx_buffer` that `DMX_GetChannelLevel(ch)` loads from, under
its guard `ch < DMX_UNIVERSE_SIZE`; `none` when the call loads nothing. -/
def DMX_GetChannelLevel_loadIndex (ch : Nat) : Option Nat :=
  if ch < DMX_UNIVERSE_SIZE then some ch else none

end SlotCounter

/-! ## The bare-metal receiver (`src/dmx_receiver/main.c`) -/

namespace BareMetal

/-- The constant `DMX_CHANNEL` of `main.c`. -/
def DMX_CHANNEL : Nat := 2

/-- The variables the interrupt handler writes: the file-scope `dmx_slot` and
`dmx_value`, and the timer compare register `TIM2->CCR1`. -/
structure State where
  dmx_slot : Nat
  dmx_value : Nat
  TIM2_CCR1 : Nat

/-- Embedding of `USART1_IRQHandler`; `sr_fe` and `sr_rxne` are the bits
`USART_SR_FE` and `USART_SR_RXNE` of `USART1->SR`, `dr` is the content of
`USART1->DR`, truncated to `uint8_t` when it is assigned to `byte`.  The
increment of the `uint16_t` counter wraps at `2^16`. -/
def USART1_IRQHandler (s : State) (sr_fe sr_rxne : Bool) (dr : Nat) : State :=
  if sr_fe then { s with dmx_slot := 0 }
  else if sr_rxne then
    let byte : Nat := dr % 256
    let s1 : State := { s with dmx_slot := (s.dmx_slot + 1) % 2 ^ 16 }
    let s2 : State :=
      if s1.dmx_slot = 1 then s1
      else if s1.dmx_slot = DMX_CHANNEL + 1 then
        { s1 with dmx_value := byte, TIM2_CCR1 := byte }
      else s1
    if s2.dmx_slot ≥ 513 then { s2 with dmx_slot := 0 } else s2
  else s

/-- A run of received bytes, one interrupt each, with RXNE set and no framing
error. -/
def receive (s : State) (bytes : List Nat) : State :=
  bytes.foldl (fun st b => USART1_IRQHandler st false true b) s

/-- The variables as C initialises them and `tim2_pwm_init` leaves the
compare register. -/
def initial : State :=
  { dmx_slot := 0, dmx_value := 0, TIM2_CCR1 := 0 }

end BareMetal

/-! ## Handle driver: lemmas on runs of received bytes -/

namespace HandleDriver

open DMX_StateTypeDef

theorem receive_nil (h : DMX_HandleTypeDef) : receive h [] = h := rfl

theorem receive_cons (h : DMX_HandleTypeDef) (p : Nat × Nat) (ds : List (Nat × Nat)) :
    receive h (p :: ds) = receive (DMX_UART_RxCpltCallback h p.1 p.2) ds := rfl

/-- In `DMX_STATE_IDLE` received bytes are ignored. -/
theorem receive_idle (ds : List (Nat × Nat)) (h : DMX_HandleTypeDef)
    (hs : h.state = DMX_STATE_IDLE) : receive h ds = h := by
  induction ds with
  | nil => rfl
  | cons p ds ih =>
    have h1 : DMX_UART_RxCpltCallback h p.1 p.2 = h := by
      simp [DMX_UART_RxCpltCallback, DMX_ProcessByte, hs]
    rw [receive_cons, h1, ih]

/-- The buffer after a run of bytes received in `DMX_STATE_DATA`: the bytes
land at consecutive indices from `current_channel`, up to index 512. -/
theorem receive_data_dmx_data (ds : List (Nat × Nat)) (h : DMX_HandleTypeDef)
    (hs : h.state = DMX_STATE_DATA) (j : Nat) :
    (receive h ds).dmx_data j =
      if h.current_channel ≤ j ∧ j < h.current_channel + ds.length ∧ j ≤ 512 then
        (ds.getD (j - h.current_channel) (0, 0)).1
      else h.dmx_data j := by
  induction ds generalizing h with
  | nil =>
    simp only [receive_nil, List.length_nil, Nat.add_zero]
    rw [if_neg]
    omega
  | cons p ds ih =>
    rw [receive_cons]
    by_cases hc : h.current_channel ≤ 512
    · have hstep : (DMX_UART_RxCpltCallback h p.1 p.2).state = DMX_STATE_DATA ∧
          (DMX_UART_RxCpltCallback h p.1 p.2).current_channel = h.current_channel + 1 ∧
          (DMX_UART_RxCpltCallback h p.1 p.2).dmx_data = store h.dmx_data h.current_channel p.1 := by
        simp only [DMX_UART_RxCpltCallback, DMX_ProcessByte, hs, DMX_MAX_CHANNELS, hc, if_true]
        split <;> simp
      obtain ⟨s1, c1, d1⟩ := hstep
      rw [ih _ s1, c1, d1]
      by_cases hj : j = h.current_channel
      · subst hj
        simp [store, hc]
      · by_cases hlt : h.current_channel ≤ j
        · have hlt2 : h.current_channel + 1 ≤ j := by omega
          have e : j - h.current_channel = (j - (h.current_channel + 1)) + 1 := by omega
          simp only [hlt, hlt2, true_and, List.length_cons, store, hj, if_false]
          rw [e, List.getD_cons_succ]
          have : (j < h.current_channel + 1 + ds.length ∧ j ≤ 512) ↔
              (j < h.current_channel + (ds.length + 1) ∧ j ≤ 512) := by omega
          simp only [this]
        · have hlt2 : ¬ h.current_channel + 1 ≤ j := by omega
          simp [hlt, hlt2, store, hj]
    · have hstep : (DMX_UART_RxCpltCallback h p.1 p.2).state = DMX_STATE_IDLE ∧
          (DMX_UART_RxCpltCallback h p.1 p.2).dmx_data = h.dmx_data := by
        simp [DMX_UART_RxCpltCallback, DMX_ProcessByte, hs, DMX_MAX_CHANNELS, hc]
      rw [receive_idle _ _ hstep.1, hstep.2]
      have : ¬ (h.current_channel ≤ j ∧ j < h.current_channel + (p :: ds).length ∧ j ≤ 512) := by
        omega
      simp only [this, if_false]

/-- The other fields after a run of bytes received in `DMX_STATE_DATA` that
fits the buffer: the decoder stays in `DMX_STATE_DATA`, and from the second
slot on the frame is flagged complete with `channel_count` slots. -/
theorem receive_data_fields (ds : List (Nat × Nat)) (h : DMX_HandleTypeDef)
    (hs : h.state = DMX_STATE_DATA) (hfit : h.current_channel + ds.length ≤ 513) :
    (receive h ds).state = DMX_STATE_DATA ∧
    (receive h ds).current_channel = h.current_channel + ds.length ∧
    (0 < ds.length → 2 < h.current_channel + ds.length →
      (receive h ds).frame_complete = 1 ∧
      (receive h ds).channel_count = h.current_channel + ds.length - 1) := by
  induction ds generalizing h with
  | nil => simp [receive_nil, hs]
  | cons p ds ih =>
    rw [receive_cons]
    simp only [List.length_cons] at hfit ⊢
    have hc : h.current_channel ≤ 512 := by omega
    have hstep : (DMX_UART_RxCpltCallback h p.1 p.2).state = DMX_STATE_DATA ∧
        (DMX_UART_RxCpltCallback h p.1 p.2).current_channel = h.current_channel + 1 ∧
        (2 < h.current_channel + 1 →
          (DMX_UART_RxCpltCallback h p.1 p.2).frame_complete = 1 ∧
          (DMX_UART_RxCpltCallback h p.1 p.2).channel_count = h.current_channel) := by
      simp only [DMX_UART_RxCpltCallback, DMX_ProcessByte, hs, DMX_MAX_CHANNELS, hc, if_true]
      split
      · simp
      · rename_i hn
        simp only [true_and]
        intro h2
        exact absurd h2 hn
    obtain ⟨s1, c1, f1⟩ := hstep
    obtain ⟨a, b, c⟩ := ih _ s1 (by rw [c1]; omega)
    refine ⟨a, by rw [b, c1]; omega, ?_⟩
    intro _ h2
    rcases Nat.eq_zero_or_pos ds.length with h0 | hpos
    · have hnil : ds = [] := List.length_eq_zero.mp h0
      subst hnil
      simp only [receive_nil, List.length_nil] at h2 ⊢
      have := f1 (by omega)
      exact ⟨this.1, by rw [this.2]; omega⟩
    · have := c hpos (by rw [c1]; omega)
      exact ⟨this.1, by rw [this.2, c1]; omega⟩

/-- After a break, a mark gap of at least one tick and the start code `0x00`
the decoder is in `DMX_STATE_DATA` at slot 1; only `dmx_data[0]` was written. -/
theorem frameHead_accept (h : DMX_HandleTypeDef) (t0 gap t1 t2 : Nat)
    (hgap : sub32 t1 t0 ≥ 1) :
    (frameHead h UartError.framing t0 gap t1 0 t2).state = DMX_STATE_DATA ∧
    (frameHead h UartError.framing t0 gap t1 0 t2).current_channel = 1 ∧
    (frameHead h UartError.framing t0 gap t1 0 t2).dmx_data = store h.dmx_data 0 0 ∧
    (frameHead h UartError.framing t0 gap t1 0 t2).frame_complete = h.frame_complete ∧
    (frameHead h UartError.framing t0 gap t1 0 t2).channel_count = h.channel_count := by
  have hg : ¬ sub32 t1 t0 = 0 := by omega
  simp [frameHead, DMX_UART_RxCpltCallback, DMX_UART_ErrorCallback, DMX_ProcessByte,
    DMX_DetectBreak, UartError.framing, DMX_START_CODE, hgap, hg]

/-- After a break event and a mark-gap byte, a start code other than `0x00`
leaves the decoder in `DMX_STATE_IDLE` with the frame fields untouched. -/
theorem frameHead_reject (h : DMX_HandleTypeDef) (error : UartError) (t0 gap t1 s t2 : Nat)
    (hfe : error.fe = true) (hs : s ≠ 0) :
    (frameHead h error t0 gap t1 s t2).state = DMX_STATE_IDLE ∧
    (frameHead h error t0 gap t1 s t2).dmx_data = h.dmx_data ∧
    (frameHead h error t0 gap t1 s t2).frame_complete = h.frame_complete ∧
    (frameHead h error t0 gap t1 s t2).channel_count = h.channel_count := by
  by_cases hf : (error.pe || error.ne || error.ore) = true
  · simp [frameHead, DMX_UART_RxCpltCallback, DMX_UART_ErrorCallback, DMX_ProcessByte, hfe, hf]
  · by_cases hd : sub32 t1 t0 ≥ 1
    · have hg : ¬ sub32 t1 t0 = 0 := by omega
      simp [frameHead, DMX_UART_RxCpltCallback, DMX_UART_ErrorCallback, DMX_ProcessByte,
        DMX_DetectBreak, DMX_START_CODE, hfe, hf, hd, hg, hs]
    · have hg : sub32 t1 t0 = 0 := by omega
      simp [frameHead, DMX_UART_RxCpltCallback, DMX_UART_ErrorCallback, DMX_ProcessByte,
        DMX_DetectBreak, hfe, hf, hg]

/-- A fault event without framing error changes only the decoder state. -/
theorem errorCallback_fault (h : DMX_HandleTypeDef) (fault : UartError) (now : Nat)
    (hnofe : fault.fe = false) (hfault : (fault.pe || fault.ne || fault.ore) = true) :
    DMX_UART_ErrorCallback h fault now = { h with state := DMX_STATE_ERROR } := by
  simp [DMX_UART_ErrorCallback, hnofe, hfault]

end HandleDriver

/-! ## Handle driver: the frame properties -/

namespace HandleDriver

open DMX_StateTypeDef

/-- C1: for every handle state, after a framing-error event at tick `t0`, one
mark-gap byte processed at a tick `t1` with `t1 - t0 ≥ 1` (as `uint32_t`), the
start code `0x00` and 512 data bytes, `DMX_GetChannelData(i)` returns the
`i`-th data byte for every `i` in 1..512 and `DMX_IsFrameComplete` returns 1. -/
theorem full_frame_channels (h : DMX_HandleTypeDef) (t0 gap t1 t2 : Nat)
    (ds : List (Nat × Nat)) (hgap : sub32 t1 t0 ≥ 1) (hlen : ds.length = 512) :
    (∀ i, 1 ≤ i → i ≤ 512 →
      DMX_GetChannelData (some (receive (frameHead h UartError.framing t0 gap t1 0 t2) ds)) i
        = (ds.getD (i - 1) (0, 0)).1) ∧
    DMX_IsFrameComplete (some (receive (frameHead h UartError.framing t0 gap t1 0 t2) ds)) = 1 := by
  obtain ⟨hs, hc, _, _, _⟩ := frameHead_accept h t0 gap t1 t2 hgap
  constructor
  · intro i h1 h2
    have hi : ¬ (i = 0 ∨ i > 512) := by omega
    simp only [DMX_GetChannelData, DMX_MAX_CHANNELS, hi, if_false]
    rw [receive_data_dmx_data ds _ hs i, hc, hlen, if_pos (by omega)]
  · have := (receive_data_fields ds _ hs (by rw [hc, hlen])).2.2
      (by rw [hlen]; decide) (by rw [hc, hlen]; decide)
    simpa [DMX_IsFrameComplete] using this.1

/-- Witness for C1: a fresh handle, break at tick 0, gap byte at tick 1, then
the start code and 512 data bytes of value 7. -/
theorem full_frame_channels_witness :
    sub32 1 0 ≥ 1 ∧ (List.replicate 512 ((7 : Nat), (1 : Nat))).length = 512 ∧
    DMX_IsFrameComplete (some (receive (frameHead fresh UartError.framing 0 0 1 0 1)
      (List.replicate 512 (7, 1)))) = 1 :=
  ⟨by decide, List.length_replicate _ _,
    (full_frame_channels fresh 0 0 1 1 (List.replicate 512 (7, 1)) (by decide)
      (List.length_replicate _ _)).2⟩

/-- C4: for every handle state, every start code `s ≠ 0x00` and every finite
sequence of bytes, after a framing-error event, a mark-gap byte, the byte `s`
and then that sequence (no further break event), `DMX_GetChannelData(i)` for
every `i`, `frame_complete` and `channel_count` equal their values from before
the break. -/
theorem nonnull_start_code_rejected (h : DMX_HandleTypeDef) (error : UartError)
    (t0 gap t1 s t2 : Nat) (ds : List (Nat × Nat))
    (hfe : error.fe = true) (hs : s ≠ 0) :
    (∀ i, DMX_GetChannelData (some (receive (frameHead h error t0 gap t1 s t2) ds)) i
        = DMX_GetChannelData (some h) i) ∧
    DMX_IsFrameComplete (some (receive (frameHead h error t0 gap t1 s t2) ds))
        = DMX_IsFrameComplete (some h) ∧
    (receive (frameHead h error t0 gap t1 s t2) ds).channel_count = h.channel_count := by
  obtain ⟨hst, hd, hf, hc⟩ := frameHead_reject h error t0 gap t1 s t2 hfe hs
  rw [receive_idle ds _ hst]
  refine ⟨?_, ?_, hc⟩
  · intro i
    simp [DMX_GetChannelData, hd]
  · simp [DMX_IsFrameComplete, hf]

/-- Witness for C4: start code `0x01` followed by two bytes, on a fresh handle. -/
theorem nonnull_start_code_rejected_witness :
    UartError.framing.fe = true ∧ (1 : Nat) ≠ 0 ∧
    (receive (frameHead fresh UartError.framing 0 0 1 1 1) [(9, 1), (8, 1)]).channel_count
      = fresh.channel_count :=
  ⟨rfl, by decide,
    (nonnull_start_code_rejected fresh UartError.framing 0 0 1 1 1 [(9, 1), (8, 1)] rfl
      (by decide)).2.2⟩

/-- Counterexample to C6 as stated: on a fresh handle, after break, mark gap,
start code `0x00`, the data byte 7 and a parity fault, channel 1 reads 7, not
the 0 it read before the break. -/
theorem fault_discards_frame_counterexample :
    ¬ (∀ i, 1 ≤ i → i ≤ 512 →
      DMX_GetChannelData (some (DMX_UART_ErrorCallback
        (receive (frameHead fresh UartError.framing 0 0 1 0 1) [(7, 1)]) UartError.parity 2)) i
        = DMX_GetChannelData (some fresh) i) := by
  intro hall
  have h1 := hall 1 (by decide) (by decide)
  revert h1
  decide

/-- C6, amended: the driver receives into the buffer it serves reads from, so
a fault event does not undo the slots already stored.  For every handle state
and all data bytes, after a framing-error event, a mark-gap byte at a later
tick, start code `0x00`, the data bytes and then a fault event (parity, noise
or overrun, no framing error), `DMX_GetChannelData(i)` returns the `i`-th data
byte for every `i` up to the number of bytes received (at most 512) and the
value from before the break for every later `i`; the decoder is in
`DMX_STATE_ERROR`. -/
theorem fault_keeps_stored_slots (h : DMX_HandleTypeDef) (fault : UartError)
    (t0 gap t1 t2 t3 : Nat) (ds : List (Nat × Nat))
    (hgap : sub32 t1 t0 ≥ 1) (hnofe : fault.fe = false)
    (hfault : (fault.pe || fault.ne || fault.ore) = true) :
    (∀ i, 1 ≤ i → i ≤ 512 →
      DMX_GetChannelData (some (DMX_UART_ErrorCallback
        (receive (frameHead h UartError.framing t0 gap t1 0 t2) ds) fault t3)) i
        = if i ≤ ds.length then (ds.getD (i - 1) (0, 0)).1
          else DMX_GetChannelData (some h) i) ∧
    (DMX_UART_ErrorCallback
        (receive (frameHead h UartError.framing t0 gap t1 0 t2) ds) fault t3).state
      = DMX_STATE_ERROR := by
  obtain ⟨hs, hc, hd, _, _⟩ := frameHead_accept h t0 gap t1 t2 hgap
  rw [errorCallback_fault _ fault t3 hnofe hfault]
  refine ⟨?_, rfl⟩
  intro i h1 h2
  have hi : ¬ (i = 0 ∨ i > 512) := by omega
  have hi0 : i ≠ 0 := by omega
  simp only [DMX_GetChannelData, DMX_MAX_CHANNELS, hi, if_false]
  rw [receive_data_dmx_data ds _ hs i, hc, hd]
  by_cases hk : i ≤ ds.length
  · rw [if_pos (by omega), if_pos hk]
  · rw [if_neg (by omega), if_neg hk]
    simp [store, hi0]

/-- Witness for C6, amended: a fresh handle, two data bytes, a parity fault. -/
theorem fault_keeps_stored_slots_witness :
    sub32 1 0 ≥ 1 ∧ UartError.parity.fe = false ∧
    (UartError.parity.pe || UartError.parity.ne || UartError.parity.ore) = true ∧
    (DMX_UART_ErrorCallback
        (receive (frameHead fresh UartError.framing 0 0 1 0 1) [(7, 1), (9, 1)])
        UartError.parity 2).state = DMX_STATE_ERROR :=
  ⟨by decide, rfl, rfl,
    (fault_keeps_stored_slots fresh UartError.parity 0 0 1 1 2 [(7, 1), (9, 1)]
      (by decide) rfl rfl).2⟩

/-- C10: for every handle and every channel number `ch`, `DMX_GetChannelData`
returns 0 on a null handle, 0 when `ch = 0` or `ch > 512`, and `dmx_data[ch]`
when `1 ≤ ch ≤ 512`; the macro `DMX_GET_CHANNEL` returns the same value on
every non-null handle.  The getter is a function of the handle alone: it has
no store through `hdmx`, so its embedding returns only the byte. -/
theorem get_channel_data_range (hdmx : DMX_HandleTypeDef) (ch : Nat) :
    DMX_GetChannelData none ch = 0 ∧
    DMX_GetChannelData (some hdmx) ch
      = (if 1 ≤ ch ∧ ch ≤ 512 then hdmx.dmx_data ch else 0) ∧
    DMX_GET_CHANNEL hdmx ch = DMX_GetChannelData (some hdmx) ch := by
  refine ⟨rfl, ?_, ?_⟩
  · by_cases hc : 1 ≤ ch ∧ ch ≤ 512
    · have : ¬ (ch = 0 ∨ ch > 512) := by omega
      simp [DMX_GetChannelData, DMX_MAX_CHANNELS, hc, this]
    · have : ch = 0 ∨ ch > 512 := by omega
      simp [DMX_GetChannelData, DMX_MAX_CHANNELS, hc, this]
  · by_cases hc : ch > 0 ∧ ch ≤ 512
    · have : ¬ (ch = 0 ∨ ch > 512) := by omega
      simp [DMX_GetChannelData, DMX_GET_CHANNEL, DMX_MAX_CHANNELS, hc, this]
    · have : ch = 0 ∨ ch > 512 := by omega
      simp [DMX_GetChannelData, DMX_GET_CHANNEL, DMX_MAX_CHANNELS, hc, this]

end HandleDriver

/-! ## Slot-counter driver: where the received bytes land -/

namespace SlotCounter

theorem slot_receive_cons (st : State) (b : Nat) (bs : List Nat) :
    receive st (b :: bs) = receive (HAL_UART_RxCpltCallback st st.huart_dmx b) bs := rfl

/-- The first byte after a break only moves the slot counter to 1: its value
is not looked at and nothing is stored. -/
theorem start_code_step (st : State) (e : UartError) (s : Nat) (hfe : e.fe = true) :
    HAL_UART_RxCpltCallback (breakEvent st e) (breakEvent st e).huart_dmx s
      = { st with dmx_slot := 1 } := by
  simp [HAL_UART_RxCpltCallback, breakEvent, HAL_UART_ErrorCallback, DMX_UNIVERSE_SIZE, hfe]

/-- One data byte inside a frame: with the counter at `c`, `1 ≤ c ≤ 511`, the
byte is stored at index `c + 1`. -/
theorem data_step (st : State) (b : Nat) (h1 : 1 ≤ st.dmx_slot) (h2 : st.dmx_slot + 1 ≤ 512) :
    HAL_UART_RxCpltCallback st st.huart_dmx b
      = { st with dmx_slot := st.dmx_slot + 1,
                  dmx_buffer := store st.dmx_buffer (st.dmx_slot + 1) b } := by
  have hm : (st.dmx_slot + 1) % 2 ^ 16 = st.dmx_slot + 1 := Nat.mod_eq_of_lt (by omega)
  have hne : ¬ st.dmx_slot + 1 = 1 := by omega
  have hlt : st.dmx_slot + 1 < 513 := by omega
  have hge : ¬ st.dmx_slot + 1 ≥ 513 := by omega
  simp only [HAL_UART_RxCpltCallback, DMX_UNIVERSE_SIZE, hm, ne_eq, not_true_eq_false,
    if_false, hne, hlt, if_true, hge]

/-- A run of data bytes inside a frame: starting with the counter at `c ≥ 1`,
the `n`-th byte of the run is stored at index `c + n`. -/
theorem receive_in_frame (bs : List Nat) (st : State)
    (h1 : 1 ≤ st.dmx_slot) (h2 : st.dmx_slot + bs.length ≤ 512) :
    (receive st bs).dmx_slot = st.dmx_slot + bs.length ∧
    (receive st bs).huart_dmx = st.huart_dmx ∧
    ∀ j, (receive st bs).dmx_buffer j =
      if st.dmx_slot < j ∧ j ≤ st.dmx_slot + bs.length then bs.getD (j - st.dmx_slot - 1) 0
      else st.dmx_buffer j := by
  induction bs generalizing st with
  | nil =>
    refine ⟨rfl, rfl, ?_⟩
    intro j
    rw [if_neg]
    · rfl
    · simp only [List.length_nil, Nat.add_zero]
      omega
  | cons b bs ih =>
    simp only [List.length_cons] at h2 ⊢
    rw [slot_receive_cons, data_step st b h1 (by omega)]
    obtain ⟨a, u, c⟩ := ih ⟨st.huart_dmx, st.dmx_slot + 1,
      store st.dmx_buffer (st.dmx_slot + 1) b⟩ (by simp) (by simp; omega)
    refine ⟨by rw [a]; simp; omega, by rw [u], ?_⟩
    intro j
    rw [c j]
    simp only []
    by_cases hj : j = st.dmx_slot + 1
    · subst hj
      simp [store]
    · by_cases hlt : st.dmx_slot < j
      · have e : j - st.dmx_slot - 1 = (j - (st.dmx_slot + 1) - 1) + 1 := by omega
        have hlt2 : st.dmx_slot + 1 < j := by omega
        rw [e, List.getD_cons_succ]
        have hiff : (st.dmx_slot + 1 < j ∧ j ≤ st.dmx_slot + 1 + bs.length) ↔
            (st.dmx_slot < j ∧ j ≤ st.dmx_slot + (bs.length + 1)) := by omega
        simp only [hiff, store, hj, if_false]
      · have hn1 : ¬ (st.dmx_slot + 1 < j ∧ j ≤ st.dmx_slot + 1 + bs.length) := by omega
        have hn2 : ¬ (st.dmx_slot < j ∧ j ≤ st.dmx_slot + (bs.length + 1)) := by omega
        simp only [hn1, hn2, if_false, store, hj]

/-- After a break, a start code and `k ≤ 511` data bytes, data byte `n` is held
at buffer index `n + 1` and index 1 holds what it held before. -/
theorem frame_lands_one_up (st : State) (e : UartError) (s : Nat) (bs : List Nat)
    (hfe : e.fe = true) (hk : bs.length ≤ 511) (n : Nat) (hn : n ≤ bs.length) :
    DMX_GetChannelLevel (receive (breakEvent st e) (s :: bs)) (n + 1)
      = if 1 ≤ n then bs.getD (n - 1) 0 else DMX_GetChannelLevel st 1 := by
  rw [slot_receive_cons, start_code_step st e s hfe]
  obtain ⟨_, _, c⟩ := receive_in_frame bs ⟨st.huart_dmx, 1, st.dmx_buffer⟩ (by simp)
    (by simp; omega)
  have hlt : n + 1 < 513 := by omega
  simp only [DMX_GetChannelLevel, DMX_UNIVERSE_SIZE, hlt, if_true, c]
  by_cases h0 : 1 ≤ n
  · rw [if_pos (by omega), if_pos h0]
    congr 1
  · have : n = 0 := by omega
    subst this
    simp

end SlotCounter

/-! ## Slot-counter driver: the frame properties -/

namespace SlotCounter

/-- C2, evaluated on the code: after initialisation, a break, the start code
`0x00` and the data bytes 10, 20, the main loop's
`DMX_GetChannelLevel(DMX_CHANNEL)` returns 10, the level of data slot 1, and
`DMX_GetChannelLevel(1)` returns 0; the level of data slot 2 is read at
index 3. -/
theorem channel_two_reads_slot_one :
    mainLoopLevel (receive (breakEvent started UartError.framing) [0, 10, 20]) = 10 ∧
    DMX_GetChannelLevel (receive (breakEvent started UartError.framing) [0, 10, 20]) 1 = 0 ∧
    DMX_GetChannelLevel (receive (breakEvent started UartError.framing) [0, 10, 20]) 3 = 20 := by
  decide

/-- Counterexample to C5 as stated: after initialisation, a break, the start
code `0x01` and the byte 9, channel 2 reads 9, not the 0 from before the
break. -/
theorem alternate_start_code_counterexample :
    ¬ (∀ ch, 1 ≤ ch → ch ≤ 512 →
      DMX_GetChannelLevel (receive (breakEvent started UartError.framing) [1, 9]) ch
        = DMX_GetChannelLevel started ch) := by
  intro hall
  have h2 := hall 2 (by decide) (by decide)
  revert h2
  decide

/-- C5, amended: the start code is not examined.  For every state, every start
code `s` and every finite sequence of bytes, the first byte after a break
changes no channel level, and the bytes after it are stored exactly as they
are after the start code `0x00`: the driver ends in the same state. -/
theorem start_code_not_examined (st : State) (e : UartError) (s : Nat) (bs : List Nat)
    (hfe : e.fe = true) :
    (∀ ch, DMX_GetChannelLevel (receive (breakEvent st e) [s]) ch
        = DMX_GetChannelLevel st ch) ∧
    receive (breakEvent st e) (s :: bs) = receive (breakEvent st e) (0 :: bs) := by
  constructor
  · intro ch
    rw [slot_receive_cons, start_code_step st e s hfe]
    rfl
  · rw [slot_receive_cons, slot_receive_cons, start_code_step st e s hfe,
      start_code_step st e 0 hfe]

/-- Witness for C5, amended: start code `0x01` and the byte 9 after
initialisation. -/
theorem start_code_not_examined_witness :
    UartError.framing.fe = true ∧
    receive (breakEvent started UartError.framing) [1, 9]
      = receive (breakEvent started UartError.framing) [0, 9] :=
  ⟨rfl, (start_code_not_examined started UartError.framing 1 [9] rfl).2⟩

end SlotCounter

/-! ## Double-buffer driver: lemmas on event sequences -/

namespace DoubleBuffer

open DMX_State_t

theorem run_nil (s : DMX_Handle_t) : run s [] = s := rfl

theorem run_cons (s : DMX_Handle_t) (e : Event) (es : List Event) :
    run s (e :: es) = run (step s e) es := rfl

theorem run_append (s : DMX_Handle_t) (es fs : List Event) :
    run s (es ++ fs) = run (run s es) fs := by
  simp [run, List.foldl_append]

/-- A received byte never writes the published buffer. -/
theorem rxCallback_dmx_data (s : DMX_Handle_t) (data now : Nat) :
    (DMX512_UART_RxCallback s data now).dmx_data = s.dmx_data := by
  unfold DMX512_UART_RxCallback
  split
  · split <;> rfl
  · split <;> rfl
  · split
    · simp only []
      split <;> rfl
    · rfl
  · rfl
  · rfl

/-- An error interrupt never writes the published buffer. -/
theorem errorCallback_dmx_data (s : DMX_Handle_t) (flags : UartError) :
    (DMX512_UART_ErrorCallback s flags).dmx_data = s.dmx_data := by
  unfold DMX512_UART_ErrorCallback
  split <;> rfl

/-- What `DMX512_Process` does to the published buffer: a copy of the first
`DMX_CHANNELS` bytes of the working buffer when `data_received` is set,
nothing otherwise. -/
theorem process_dmx_data (s : DMX_Handle_t) (now : Nat) :
    (DMX512_Process s now).dmx_data =
      if s.data_received ≠ 0 then memcpy s.dmx_data s.new_dmx_data DMX_CHANNELS
      else s.dmx_data := by
  unfold DMX512_Process
  by_cases ht : sub32 now s.last_break_time > 1000 <;>
    by_cases hd : s.data_received = 0 <;> simp [ht, hd, DMX512_Reset]

/-- The frame head: a framing-error interrupt, the byte that ends the mark
after break at tick `t1`, and the start code `0x00` put the decoder in
`DMX_STATE_DATA` with an all-zero working buffer. -/
theorem run_frame_head (s : DMX_Handle_t) (e : UartError) (gap t1 t2 : Nat)
    (hfe : e.fe = true) :
    run s [Event.error e, Event.rx gap t1, Event.rx 0 t2] =
      { s with
        state := DMX_STATE_DATA
        channel_count := 0
        new_dmx_data := memset0 s.new_dmx_data DMX_CHANNELS
        break_detected := 0
        last_break_time := t1 } := by
  simp [run, step, DMX512_UART_ErrorCallback, DMX512_UART_RxCallback, DMX_START_CODE, hfe]

/-- A run of data bytes in `DMX_STATE_DATA` that fits the working buffer: the
bytes land at consecutive indices from `channel_count`, `data_received` is set
once two slots are filled, the published buffer is untouched. -/
theorem run_data_bytes (ds : List (Nat × Nat)) (s : DMX_Handle_t)
    (hs : s.state = DMX_STATE_DATA) (hfit : s.channel_count + ds.length ≤ 512) :
    (run s (rxEvents ds)).state = DMX_STATE_DATA ∧
    (run s (rxEvents ds)).channel_count = s.channel_count + ds.length ∧
    (run s (rxEvents ds)).dmx_data = s.dmx_data ∧
    (run s (rxEvents ds)).last_break_time = s.last_break_time ∧
    (0 < ds.length → 2 ≤ s.channel_count + ds.length →
      (run s (rxEvents ds)).data_received = 1) ∧
    ∀ j, (run s (rxEvents ds)).new_dmx_data j =
      if s.channel_count ≤ j ∧ j < s.channel_count + ds.length then
        (ds.getD (j - s.channel_count) (0, 0)).1
      else s.new_dmx_data j := by
  induction ds generalizing s with
  | nil =>
    refine ⟨hs, rfl, rfl, rfl, ?_, ?_⟩
    · intro h0
      exact absurd h0 (by simp)
    · intro j
      rw [if_neg]
      · rfl
      · simp only [List.length_nil, Nat.add_zero]
        omega
  | cons p ds ih =>
    simp only [List.length_cons] at hfit ⊢
    have hc : s.channel_count < 512 := by omega
    have hstep : (step s (Event.rx p.1 p.2)).state = DMX_STATE_DATA ∧
        (step s (Event.rx p.1 p.2)).channel_count = s.channel_count + 1 ∧
        (step s (Event.rx p.1 p.2)).dmx_data = s.dmx_data ∧
        (step s (Event.rx p.1 p.2)).last_break_time = s.last_break_time ∧
        (step s (Event.rx p.1 p.2)).new_dmx_data = store s.new_dmx_data s.channel_count p.1 ∧
        (2 ≤ s.channel_count + 1 → (step s (Event.rx p.1 p.2)).data_received = 1) := by
      simp only [step, DMX512_UART_RxCallback, hs, DMX_CHANNELS, hc, if_true]
      split
      · simp
      · rename_i hn
        simp only [true_and]
        intro h2
        exact absurd h2 hn
    obtain ⟨s1, c1, d1, l1, n1, r1⟩ := hstep
    have hrun : run s (rxEvents (p :: ds)) = run (step s (Event.rx p.1 p.2)) (rxEvents ds) := rfl
    rw [hrun]
    obtain ⟨a, b, c, d, e, f⟩ := ih _ s1 (by rw [c1]; omega)
    refine ⟨a, by rw [b, c1]; omega, by rw [c, d1], by rw [d, l1], ?_, ?_⟩
    · intro _ h2
      rcases Nat.eq_zero_or_pos ds.length with h0 | hpos
      · have hnil : ds = [] := List.length_eq_zero.mp h0
        subst hnil
        simp only [List.length_nil] at h2
        exact r1 (by omega)
      · exact e hpos (by rw [c1]; omega)
    · intro j
      rw [f j, c1, n1]
      by_cases hj : j = s.channel_count
      · subst hj
        simp [store]
      · by_cases hlt : s.channel_count ≤ j
        · have e1 : j - s.channel_count = (j - (s.channel_count + 1)) + 1 := by omega
          rw [e1, List.getD_cons_succ]
          have hiff : (s.channel_count + 1 ≤ j ∧ j < s.channel_count + 1 + ds.length) ↔
              (s.channel_count ≤ j ∧ j < s.channel_count + (ds.length + 1)) := by omega
          simp only [hiff, store, hj, if_false]
        · have hn1 : ¬ (s.channel_count + 1 ≤ j ∧ j < s.channel_count + 1 + ds.length) := by
            omega
          have hn2 : ¬ (s.channel_count ≤ j ∧ j < s.channel_count + (ds.length + 1)) := by
            omega
          simp only [hn1, hn2, if_false, store, hj]

end DoubleBuffer

/-! ## Double-buffer driver: the frame properties -/

namespace DoubleBuffer

open DMX_State_t

/-- An error interrupt leaves the working buffer and `data_received` alone. -/
theorem errorCallback_working (s : DMX_Handle_t) (flags : UartError) :
    (DMX512_UART_ErrorCallback s flags).new_dmx_data = s.new_dmx_data ∧
    (DMX512_UART_ErrorCallback s flags).data_received = s.data_received := by
  unfold DMX512_UART_ErrorCallback
  split <;> exact ⟨rfl, rfl⟩

/-- Inside 1..512 `DMX512_GetChannelValue` reads the published buffer one
index down. -/
theorem getChannelValue_in_range (s : DMX_Handle_t) (i : Nat) (h1 : 1 ≤ i) (h2 : i ≤ 512) :
    DMX512_GetChannelValue s i = s.dmx_data (i - 1) := by
  have : i > 0 ∧ i ≤ 512 := ⟨by omega, h2⟩
  simp [DMX512_GetChannelValue, DMX_CHANNELS, this]

/-- With `data_received` set, an error interrupt followed by `DMX512_Process`
publishes the working buffer. -/
theorem published_after_break_process (u : DMX_Handle_t) (e : UartError) (t : Nat)
    (hr : u.data_received = 1) (j : Nat) (hj : j < 512) :
    (run u [Event.error e, Event.process t]).dmx_data j = u.new_dmx_data j := by
  have hlast : run u [Event.error e, Event.process t]
      = DMX512_Process (DMX512_UART_ErrorCallback u e) t := rfl
  rw [hlast, process_dmx_data, (errorCallback_working u e).1, (errorCallback_working u e).2, hr]
  simp [memcpy, DMX_CHANNELS, hj]

/-- Counterexample to C3 as stated (k = 1): after `DMX512_Init`, a break, the
mark-gap byte, start code `0x00`, the single data byte 7, a second break and
`DMX512_Process`, channel 1 reads 0, not 7. -/
theorem single_slot_frame_counterexample :
    ¬ (∀ i, 1 ≤ i → i ≤ 512 →
      DMX512_GetChannelValue
        (run started ([Event.error UartError.framing, Event.rx 0 0, Event.rx 0 0]
          ++ rxEvents [(7, 0)] ++ [Event.error UartError.framing, Event.process 0])) i
        = if i ≤ [((7 : Nat), (0 : Nat))].length then ([((7 : Nat), (0 : Nat))].getD (i - 1) (0, 0)).1
          else 0) := by
  intro hall
  have h1 := hall 1 (by decide) (by decide)
  revert h1
  decide

/-- C3, amended: a truncated frame is promoted when at least two data slots
were captured.  For every prior state, every `k` with `2 ≤ k < 512` and all
bytes `b1..bk`, after a framing-error event, one mark-gap byte, the start code
`0x00`, the data bytes, a second framing-error event and a `DMX512_Process`
call, `DMX512_GetChannelValue(i)` returns `b_i` for every `i ≤ k` and 0 for
every `i` with `k < i ≤ 512`.  The second error interrupt `e2` may report
anything, a framing error included. -/
theorem truncated_frame_promoted (s : DMX_Handle_t) (e1 e2 : UartError)
    (gap t1 t2 t3 : Nat) (ds : List (Nat × Nat))
    (h1 : e1.fe = true) (hk2 : 2 ≤ ds.length) (hk : ds.length < 512) :
    ∀ i, 1 ≤ i → i ≤ 512 →
      DMX512_GetChannelValue
        (run s ([Event.error e1, Event.rx gap t1, Event.rx 0 t2]
          ++ rxEvents ds ++ [Event.error e2, Event.process t3])) i
        = if i ≤ ds.length then (ds.getD (i - 1) (0, 0)).1 else 0 := by
  intro i hi1 hi2
  rw [run_append, run_append, run_frame_head s e1 gap t1 t2 h1]
  obtain ⟨_, _, _, _, hr, hn⟩ := run_data_bytes ds
    { s with
      state := DMX_STATE_DATA
      channel_count := 0
      new_dmx_data := memset0 s.new_dmx_data DMX_CHANNELS
      break_detected := 0
      last_break_time := t1 } rfl (by simp; omega)
  have hr1 := hr (by omega) (by simp; omega)
  have hn1 := hn (i - 1)
  have hlt : i - 1 < 512 := by omega
  simp only [Nat.zero_le, true_and, Nat.zero_add, Nat.sub_zero] at hn1
  rw [getChannelValue_in_range _ i hi1 hi2, published_after_break_process _ e2 t3 hr1 _ hlt, hn1]
  have hiff : (i - 1 < ds.length) ↔ (i ≤ ds.length) := by omega
  simp only [hiff, memset0, DMX_CHANNELS, hlt, if_true]

/-- Witness for C3, amended: two data bytes after `DMX512_Init`. -/
theorem truncated_frame_promoted_witness :
    UartError.framing.fe = true ∧ 2 ≤ [((7 : Nat), (0 : Nat)), (9, 0)].length ∧
    [((7 : Nat), (0 : Nat)), (9, 0)].length < 512 ∧
    DMX512_GetChannelValue
      (run started ([Event.error UartError.framing, Event.rx 0 0, Event.rx 0 0]
        ++ rxEvents [(7, 0), (9, 0)] ++ [Event.error UartError.framing, Event.process 0])) 2
      = 9 :=
  ⟨rfl, by decide, by decide,
    truncated_frame_promoted started UartError.framing UartError.framing 0 0 0 0
      [(7, 0), (9, 0)] rfl (by decide) (by decide) 2 (by decide) (by decide)⟩

end DoubleBuffer

namespace DoubleBuffer

open DMX_State_t

/-- Counterexample to C7 as stated: after `DMX512_Init`, one frame with the
data bytes 7 and 9 published at tick 5, a `DMX512_Process` call at tick 2000
finds the silence timeout exceeded, and channel 1 still reads 7. -/
theorem silence_keeps_levels_counterexample :
    ¬ (sub32 2000 (run started ([Event.error UartError.framing, Event.rx 0 0, Event.rx 0 0]
          ++ rxEvents [(7, 0), (9, 0)] ++ [Event.process 5])).last_break_time > 1000 →
      ∀ i, 1 ≤ i → i ≤ 512 →
        DMX512_GetChannelValue (DMX512_Process
          (run started ([Event.error UartError.framing, Event.rx 0 0, Event.rx 0 0]
            ++ rxEvents [(7, 0), (9, 0)] ++ [Event.process 5])) 2000) i = 0) := by
  intro hall
  have h1 := hall (by decide) 1 (by decide) (by decide)
  revert h1
  decide

/-- C7, amended: signal loss resets the decoder and leaves the published
levels readable.  For every state, if `DMX512_Process` runs at a tick with
`HAL_GetTick() - last_break_time > 1000`, then afterwards the decoder is in
`DMX_STATE_IDLE` with `channel_count = 0` and `break_detected = 0`, and
`DMX512_GetChannelValue(i)` returns for every `i` the level it returned before
the call when `data_received` was clear, and the working-buffer byte
`new_dmx_data[i - 1]` (for `i` in 1..512) when it was set. -/
theorem silence_resets_decoder_only (s : DMX_Handle_t) (now : Nat)
    (hsilent : sub32 now s.last_break_time > 1000) :
    (DMX512_Process s now).state = DMX_STATE_IDLE ∧
    (DMX512_Process s now).channel_count = 0 ∧
    (DMX512_Process s now).break_detected = 0 ∧
    (s.data_received = 0 →
      ∀ i, DMX512_GetChannelValue (DMX512_Process s now) i = DMX512_GetChannelValue s i) ∧
    (s.data_received ≠ 0 →
      ∀ i, 1 ≤ i → i ≤ 512 →
        DMX512_GetChannelValue (DMX512_Process s now) i = s.new_dmx_data (i - 1)) := by
  refine ⟨?_, ?_, ?_, ?_, ?_⟩
  · by_cases hd : s.data_received = 0 <;> simp [DMX512_Process, DMX512_Reset, hsilent, hd]
  · by_cases hd : s.data_received = 0 <;> simp [DMX512_Process, DMX512_Reset, hsilent, hd]
  · by_cases hd : s.data_received = 0 <;> simp [DMX512_Process, DMX512_Reset, hsilent, hd]
  · intro hd i
    simp [DMX512_GetChannelValue, process_dmx_data, hd]
  · intro hd i h1 h2
    have hlt : i - 1 < 512 := by omega
    rw [getChannelValue_in_range _ i h1 h2, process_dmx_data, if_pos hd]
    simp [memcpy, DMX_CHANNELS, hlt]

/-- Witness for C7, amended: the state after one published frame, then
`DMX512_Process` at tick 2000. -/
theorem silence_resets_decoder_only_witness :
    sub32 2000 (run started ([Event.error UartError.framing, Event.rx 0 0, Event.rx 0 0]
        ++ rxEvents [(7, 0), (9, 0)] ++ [Event.process 5])).last_break_time > 1000 ∧
    (DMX512_Process (run started ([Event.error UartError.framing, Event.rx 0 0, Event.rx 0 0]
        ++ rxEvents [(7, 0), (9, 0)] ++ [Event.process 5])) 2000).state = DMX_STATE_IDLE :=
  ⟨by decide,
    (silence_resets_decoder_only
      (run started ([Event.error UartError.framing, Event.rx 0 0, Event.rx 0 0]
        ++ rxEvents [(7, 0), (9, 0)] ++ [Event.process 5])) 2000 (by decide)).1⟩

/-- A sequence of reception callbacks, with no `DMX512_Process` call in it,
leaves the published buffer as it was. -/
theorem run_reception_dmx_data (es : List Event) (s : DMX_Handle_t)
    (hes : receptionOnly es = true) :
    (run s es).dmx_data = s.dmx_data := by
  induction es generalizing s with
  | nil => rfl
  | cons e es ih =>
    simp only [receptionOnly, List.all_cons, Bool.and_eq_true] at hes
    rw [run_cons, ih (step s e) hes.2]
    cases e with
    | rx data now => exact rxCallback_dmx_data s data now
    | error flags => exact errorCallback_dmx_data s flags
    | process now => simp [Event.isProcess] at hes

/-- C9: for every state, every received byte and every combination of UART
error flags, `DMX512_UART_RxCallback` and `DMX512_UART_ErrorCallback` leave
`dmx_handle.dmx_data` unchanged, so `DMX512_GetChannelValue(i)` returns the
same result before and after any sequence of reception callbacks that holds
no `DMX512_Process` call, for every `i`. -/
theorem reception_keeps_published (s : DMX_Handle_t) (data now : Nat) (flags : UartError)
    (es : List Event) (hes : receptionOnly es = true) :
    (DMX512_UART_RxCallback s data now).dmx_data = s.dmx_data ∧
    (DMX512_UART_ErrorCallback s flags).dmx_data = s.dmx_data ∧
    ∀ i, DMX512_GetChannelValue (run s es) i = DMX512_GetChannelValue s i := by
  refine ⟨rxCallback_dmx_data s data now, errorCallback_dmx_data s flags, ?_⟩
  intro i
  simp [DMX512_GetChannelValue, run_reception_dmx_data es s hes]

/-- Witness for C9: a break and four bytes received after one published frame;
channel 1 reads the same before and after. -/
theorem reception_keeps_published_witness :
    receptionOnly [Event.error UartError.framing, Event.rx 0 9, Event.rx 0 9, Event.rx 3 9,
      Event.rx 4 9] = true ∧
    DMX512_GetChannelValue
        (run (run started (openFrameTrace ++ [Event.process 5]))
          [Event.error UartError.framing, Event.rx 0 9, Event.rx 0 9, Event.rx 3 9,
            Event.rx 4 9]) 1
      = DMX512_GetChannelValue (run started (openFrameTrace ++ [Event.process 5])) 1 :=
  ⟨rfl,
    (reception_keeps_published (run started (openFrameTrace ++ [Event.process 5])) 0 0
      UartError.framing
      [Event.error UartError.framing, Event.rx 0 9, Event.rx 0 9, Event.rx 3 9, Event.rx 4 9]
      rfl).2.2 1⟩

end DoubleBuffer

namespace DoubleBuffer

open DMX_State_t

/-- Where the published buffer comes from: after any sequence of events it
holds what it held at the start, or the working buffer as it stood at a
`DMX512_Process` call of the sequence that found `data_received` set. -/
theorem published_origin (es : List Event) (s : DMX_Handle_t) :
    (∀ j, j < 512 → (run s es).dmx_data j = s.dmx_data j) ∨
    ∃ pre now post, es = pre ++ Event.process now :: post ∧
      (run s pre).data_received ≠ 0 ∧
      ∀ j, j < 512 → (run s es).dmx_data j = (run s pre).new_dmx_data j := by
  induction es generalizing s with
  | nil => exact Or.inl (fun _ _ => rfl)
  | cons e es ih =>
    rcases ih (step s e) with hsame | ⟨pre, now, post, hsplit, hrecv, hcopy⟩
    · cases e with
      | rx data now =>
        left
        intro j hj
        rw [run_cons, hsame j hj]
        exact congrFun (rxCallback_dmx_data s data now) j
      | error flags =>
        left
        intro j hj
        rw [run_cons, hsame j hj]
        exact congrFun (errorCallback_dmx_data s flags) j
      | process now =>
        by_cases hd : s.data_received = 0
        · left
          intro j hj
          rw [run_cons, hsame j hj]
          simp [step, process_dmx_data, hd]
        · right
          refine ⟨[], now, es, rfl, hd, ?_⟩
          intro j hj
          rw [run_cons, hsame j hj]
          simp [step, process_dmx_data, hd, memcpy, DMX_CHANNELS, hj, run_nil]
    · right
      refine ⟨e :: pre, now, post, by rw [hsplit]; rfl, hrecv, ?_⟩
      intro j hj
      rw [run_cons, hcopy j hj]
      rfl

/-- Counterexample to C8 as stated: after `DMX512_Init`, a break, the mark-gap
byte, the start code and the data bytes 7 and 9, the decoder is still in
`DMX_STATE_DATA` at slot 2 and the trace has finalised no frame; a
`DMX512_Process` call at that point publishes the bytes 7 and 9, so the
published buffer is neither all zero nor a finalised frame. -/
theorem open_frame_published_counterexample :
    (run started openFrameTrace).state = DMX_STATE_DATA ∧
    (run started openFrameTrace).channel_count = 2 ∧
    ¬ ((∀ i, 1 ≤ i → i ≤ 512 →
          DMX512_GetChannelValue (run started (openFrameTrace ++ [Event.process 0])) i = 0) ∨
       ∃ f ∈ finalisedFrames started openFrameTrace, ∀ i, 1 ≤ i → i ≤ 512 →
          DMX512_GetChannelValue (run started (openFrameTrace ++ [Event.process 0])) i
            = f (i - 1)) := by
  refine ⟨by decide, by decide, ?_⟩
  rintro (hzero | ⟨f, hf, _⟩)
  · have h1 := hzero 1 (by decide) (by decide)
    revert h1
    decide
  · have hnone : finalisedFrames started openFrameTrace = [] := by
      simp [finalisedFrames, openFrameTrace, step, started, DMX512_Init, zeroed,
        DMX512_UART_ErrorCallback, DMX512_UART_RxCallback, UartError.framing,
        DMX_START_CODE, DMX_CHANNELS]
    rw [hnone] at hf
    exact absurd hf (List.not_mem_nil f)

/-- C8, amended: the published buffer is always a whole copy, but the frame it
was copied from may still be in reception.  For every sequence of
framing-error events, received bytes and `DMX512_Process` calls starting from
`DMX512_Init`, the levels read by `DMX512_GetChannelValue` are either all the
initial zero, or all 512 are the working buffer `new_dmx_data` as it stood at
one earlier `DMX512_Process` call of the sequence, a call that found
`data_received` set. -/
theorem published_is_whole_copy (s0 : DMX_Handle_t) (es : List Event) :
    (∀ i, 1 ≤ i → i ≤ 512 → DMX512_GetChannelValue (run (DMX512_Init s0) es) i = 0) ∨
    ∃ pre now post, es = pre ++ Event.process now :: post ∧
      (run (DMX512_Init s0) pre).data_received ≠ 0 ∧
      ∀ i, 1 ≤ i → i ≤ 512 →
        DMX512_GetChannelValue (run (DMX512_Init s0) es) i
          = (run (DMX512_Init s0) pre).new_dmx_data (i - 1) := by
  rcases published_origin es (DMX512_Init s0) with hsame | ⟨pre, now, post, hsplit, hrecv, hcopy⟩
  · left
    intro i h1 h2
    have hlt : i - 1 < 512 := by omega
    rw [getChannelValue_in_range _ i h1 h2, hsame _ hlt]
    simp [DMX512_Init, memset0, DMX_CHANNELS, hlt]
  · right
    refine ⟨pre, now, post, hsplit, hrecv, ?_⟩
    intro i h1 h2
    rw [getChannelValue_in_range _ i h1 h2, hcopy _ (by omega)]

end DoubleBuffer

/-! ## Slot-counter driver: reachable states and the end of a universe -/

namespace SlotCounter

theorem slot_receive_append (st : State) (as bs : List Nat) :
    receive st (as ++ bs) = receive (receive st as) bs := by
  simp [receive, List.foldl_append]

theorem slot_run_cons (s : State) (e : Event) (es : List Event) :
    run s (e :: es) = run (step s e) es := rfl

/-- With the counter at 0 the next byte only moves it to 1. -/
theorem first_slot_step (st : State) (b : Nat) (h0 : st.dmx_slot = 0) :
    HAL_UART_RxCpltCallback st st.huart_dmx b = { st with dmx_slot := 1 } := by
  simp [HAL_UART_RxCpltCallback, DMX_UNIVERSE_SIZE, h0]

/-- With the counter at 512 the next byte is not stored and the counter goes
back to 0. -/
theorem last_slot_step (st : State) (b : Nat) (h512 : st.dmx_slot = 512) :
    HAL_UART_RxCpltCallback st st.huart_dmx b = { st with dmx_slot := 0 } := by
  simp [HAL_UART_RxCpltCallback, DMX_UNIVERSE_SIZE, h512]

/-- The store index of `HAL_UART_RxCpltCallback` is the index its assignment
uses: the buffer after the call is the buffer before with that one store. -/
theorem rx_store_index_faithful (s : State) (huart rx_byte : Nat) :
    (HAL_UART_RxCpltCallback s huart rx_byte).dmx_buffer =
      match HAL_UART_RxCpltCallback_storeIndex s huart with
      | some i => store s.dmx_buffer i rx_byte
      | none => s.dmx_buffer := by
  unfold HAL_UART_RxCpltCallback HAL_UART_RxCpltCallback_storeIndex
  by_cases hu : huart ≠ s.huart_dmx
  · simp [hu]
  · simp only [hu, if_false, DMX_UNIVERSE_SIZE]
    generalize (s.dmx_slot + 1) % 2 ^ 16 = m
    by_cases h1 : m = 1
    · simp [h1]
    · by_cases h2 : m < 513
      · have h3 : ¬ m ≥ 513 := by omega
        simp [h1, h2, h3]
      · have h3 : m ≥ 513 := by omega
        simp [h1, h2, h3]

/-- The load index of `DMX_GetChannelLevel` is the index it reads. -/
theorem load_index_faithful (s : State) (ch : Nat) :
    DMX_GetChannelLevel s ch =
      match DMX_GetChannelLevel_loadIndex ch with
      | some i => s.dmx_buffer i
      | none => 0 := by
  unfold DMX_GetChannelLevel DMX_GetChannelLevel_loadIndex
  split <;> rfl

/-- One callback keeps the counter at most 512 and `dmx_buffer[0]` at zero. -/
theorem slot_step_invariant (s : State) (e : Event)
    (hslot : s.dmx_slot ≤ 512) (hzero : s.dmx_buffer 0 = 0) :
    (step s e).dmx_slot ≤ 512 ∧ (step s e).dmx_buffer 0 = 0 := by
  cases e with
  | error huart errorCode =>
    simp only [step, HAL_UART_ErrorCallback]
    by_cases hu : huart ≠ s.huart_dmx
    · simp [hu, hslot, hzero]
    · by_cases hf : errorCode.fe = true <;> simp [hu, hf, hslot, hzero]
  | rx huart rx_byte =>
    simp only [step]
    by_cases hu : huart ≠ s.huart_dmx
    · simp [HAL_UART_RxCpltCallback, hu, hslot, hzero]
    · have hu2 : huart = s.huart_dmx := by
        by_contra hne
        exact hu hne
      subst hu2
      rcases Nat.eq_zero_or_pos s.dmx_slot with h0 | hpos
      · rw [first_slot_step s rx_byte h0]
        exact ⟨by simp, hzero⟩
      · by_cases h512 : s.dmx_slot = 512
        · rw [last_slot_step s rx_byte h512]
          exact ⟨by simp, hzero⟩
        · rw [data_step s rx_byte hpos (by omega)]
          refine ⟨by simp; omega, ?_⟩
          simp [store, hzero]

/-- Any sequence of callbacks keeps the counter at most 512 and
`dmx_buffer[0]` at zero. -/
theorem slot_run_invariant (es : List Event) (s : State)
    (hslot : s.dmx_slot ≤ 512) (hzero : s.dmx_buffer 0 = 0) :
    (run s es).dmx_slot ≤ 512 ∧ (run s es).dmx_buffer 0 = 0 := by
  induction es generalizing s with
  | nil => exact ⟨hslot, hzero⟩
  | cons e es ih =>
    rw [slot_run_cons]
    obtain ⟨a, b⟩ := slot_step_invariant s e hslot hzero
    exact ih (step s e) a b

/-- The end of a full universe: after a break, the start code, 511 data bytes
and one more byte the counter is back at 0; two further bytes `x`, `y` with no
break in between then store `y` at index 2. -/
theorem universe_end (st : State) (e : UartError) (sc z x y : Nat) (ds : List Nat)
    (hfe : e.fe = true) (hlen : ds.length = 511) :
    (receive (breakEvent st e) (sc :: (ds ++ [z]))).dmx_slot = 0 ∧
    (∀ j, (receive (breakEvent st e) (sc :: (ds ++ [z]))).dmx_buffer j =
      if 1 < j ∧ j ≤ 512 then ds.getD (j - 2) 0 else st.dmx_buffer j) ∧
    (receive (receive (breakEvent st e) (sc :: (ds ++ [z]))) [x, y]).dmx_buffer 2 = y := by
  obtain ⟨hs, hu, hb⟩ := receive_in_frame ds ⟨st.huart_dmx, 1, st.dmx_buffer⟩ (by simp)
    (by simp; omega)
  simp only [] at hs hu hb
  have hlast : receive (breakEvent st e) (sc :: (ds ++ [z]))
      = { receive ⟨st.huart_dmx, 1, st.dmx_buffer⟩ ds with dmx_slot := 0 } := by
    rw [slot_receive_cons, start_code_step st e sc hfe, slot_receive_append]
    show HAL_UART_RxCpltCallback (receive ⟨st.huart_dmx, 1, st.dmx_buffer⟩ ds)
      (receive ⟨st.huart_dmx, 1, st.dmx_buffer⟩ ds).huart_dmx z = _
    exact last_slot_step _ z (by rw [hs, hlen])
  rw [hlast]
  refine ⟨rfl, ?_, ?_⟩
  · intro j
    simp only [hb j, hlen]
    have hiff : (1 < j ∧ j ≤ 1 + 511) ↔ (1 < j ∧ j ≤ 512) := by omega
    have hidx : j - 1 - 1 = j - 2 := by omega
    simp only [hiff, hidx]
  · have hstep1 := first_slot_step
      { receive ⟨st.huart_dmx, 1, st.dmx_buffer⟩ ds with dmx_slot := 0 } x rfl
    have hrun : receive { receive ⟨st.huart_dmx, 1, st.dmx_buffer⟩ ds with dmx_slot := 0 } [x, y]
        = HAL_UART_RxCpltCallback
            (HAL_UART_RxCpltCallback
              { receive ⟨st.huart_dmx, 1, st.dmx_buffer⟩ ds with dmx_slot := 0 }
              (receive ⟨st.huart_dmx, 1, st.dmx_buffer⟩ ds).huart_dmx x)
            (HAL_UART_RxCpltCallback
              { receive ⟨st.huart_dmx, 1, st.dmx_buffer⟩ ds with dmx_slot := 0 }
              (receive ⟨st.huart_dmx, 1, st.dmx_buffer⟩ ds).huart_dmx x).huart_dmx y := rfl
    rw [hrun]
    simp only [] at hstep1
    rw [hstep1]
    have hstep2 := data_step
      { receive ⟨st.huart_dmx, 1, st.dmx_buffer⟩ ds with dmx_slot := 1 } y (by simp) (by simp)
    simp only [] at hstep2
    rw [hstep2]
    simp [store]

end SlotCounter

/-! ## Slot-counter driver: invariants of the reachable states -/

namespace SlotCounter

/-- C11: in every state reachable from the initial variables (with `DMX_Init`
storing any UART handle) by any sequence of `HAL_UART_RxCpltCallback` and
`HAL_UART_ErrorCallback` events with any handles and byte values,
`DMX_GetChannelLevel(0)` returns 0 and `DMX_GetChannelLevel(ch)` returns 0 for
every `ch ≥ 513`; `dmx_buffer[0]` is never written. -/
theorem index_zero_and_beyond_read_zero (u : Nat) (es : List Event) :
    DMX_GetChannelLevel (run (DMX_Init initial u) es) 0 = 0 ∧
    (∀ ch, 513 ≤ ch → DMX_GetChannelLevel (run (DMX_Init initial u) es) ch = 0) ∧
    (run (DMX_Init initial u) es).dmx_buffer 0 = 0 := by
  obtain ⟨_, hz⟩ := slot_run_invariant es (DMX_Init initial u) (by simp [DMX_Init, initial])
    (by simp [DMX_Init, initial])
  refine ⟨?_, ?_, hz⟩
  · simp [DMX_GetChannelLevel, DMX_UNIVERSE_SIZE, hz]
  · intro ch hch
    have : ¬ ch < 513 := by omega
    simp [DMX_GetChannelLevel, DMX_UNIVERSE_SIZE, this]

/-- C13, evaluated on the code: after initialisation, a break and 513 bytes of
value 5 the counter is back at 0 and channel 2 reads 5; the two further bytes
1 and 9, with no break before them, change channel 2 to 9. -/
theorem bytes_after_universe_are_stored :
    (receive (breakEvent started UartError.framing)
      (5 :: (List.replicate 511 5 ++ [5]))).dmx_slot = 0 ∧
    DMX_GetChannelLevel (receive (breakEvent started UartError.framing)
      (5 :: (List.replicate 511 5 ++ [5]))) 2 = 5 ∧
    DMX_GetChannelLevel (receive (receive (breakEvent started UartError.framing)
      (5 :: (List.replicate 511 5 ++ [5]))) [1, 9]) 2 = 9 := by
  obtain ⟨a, b, c⟩ := universe_end started UartError.framing 5 5 1 9 (List.replicate 511 5)
    rfl (List.length_replicate _ _)
  refine ⟨a, ?_, ?_⟩
  · have h2 : (2 : Nat) < DMX_UNIVERSE_SIZE := by decide
    simp only [DMX_GetChannelLevel, h2, if_true, b 2]
    decide
  · have h2 : (2 : Nat) < DMX_UNIVERSE_SIZE := by decide
    simp only [DMX_GetChannelLevel, h2, if_true, c]

/-- C20: in every state reachable from the initial variables by any sequence
of `HAL_UART_RxCpltCallback` and `HAL_UART_ErrorCallback` events, `dmx_slot`
is at most 512, so the 16-bit increment does not wrap; every store of the next
`HAL_UART_RxCpltCallback` into `dmx_buffer` uses an index in 2..512; every
load of `DMX_GetChannelLevel` uses an index below 513, and the load of the
main loop, `DMX_GetChannelLevel(DMX_CHANNEL)`, uses index 2. -/
theorem slot_and_indices_in_bounds (u : Nat) (es : List Event) :
    (run (DMX_Init initial u) es).dmx_slot ≤ 512 ∧
    ((run (DMX_Init initial u) es).dmx_slot + 1) % 2 ^ 16
      = (run (DMX_Init initial u) es).dmx_slot + 1 ∧
    (∀ huart i, HAL_UART_RxCpltCallback_storeIndex (run (DMX_Init initial u) es) huart = some i →
      2 ≤ i ∧ i ≤ 512) ∧
    (∀ ch i, DMX_GetChannelLevel_loadIndex ch = some i → i ≤ 512) ∧
    DMX_GetChannelLevel_loadIndex DMX_CHANNEL = some 2 := by
  obtain ⟨hs, _⟩ := slot_run_invariant es (DMX_Init initial u) (by simp [DMX_Init, initial])
    (by simp [DMX_Init, initial])
  have hm : ((run (DMX_Init initial u) es).dmx_slot + 1) % 2 ^ 16
      = (run (DMX_Init initial u) es).dmx_slot + 1 := Nat.mod_eq_of_lt (by omega)
  refine ⟨hs, hm, ?_, ?_, by decide⟩
  · intro huart i hi
    unfold HAL_UART_RxCpltCallback_storeIndex at hi
    rw [hm] at hi
    simp only [DMX_UNIVERSE_SIZE] at hi
    split at hi
    · exact absurd hi (by simp)
    · split at hi
      · exact absurd hi (by simp)
      · split at hi
        · have := Option.some.inj hi
          omega
        · exact absurd hi (by simp)
  · intro ch i hi
    unfold DMX_GetChannelLevel_loadIndex at hi
    simp only [DMX_UNIVERSE_SIZE] at hi
    split at hi
    · have := Option.some.inj hi
      omega
    · exact absurd hi (by simp)

end SlotCounter

/-! ## Handle driver: break acceptance, faults, channel count and bounds -/

namespace HandleDriver

open DMX_StateTypeDef

theorem receive_append (h : DMX_HandleTypeDef) (as bs : List (Nat × Nat)) :
    receive h (as ++ bs) = receive (receive h as) bs := by
  simp [receive, List.foldl_append]

theorem handle_run_cons (h : DMX_HandleTypeDef) (e : Event) (es : List Event) :
    run h (e :: es) = run (step h e) es := rfl

/-- After an error word with the framing bit and no fault bit, a mark gap of
at least one tick and the start code `0x00`, the decoder is in
`DMX_STATE_DATA` at slot 1; only `dmx_data[0]` was written. -/
theorem frameHead_accept_flags (h : DMX_HandleTypeDef) (e : UartError) (t0 gap t1 t2 : Nat)
    (hfe : e.fe = true) (hclean : (e.pe || e.ne || e.ore) = false)
    (hgap : sub32 t1 t0 ≥ 1) :
    (frameHead h e t0 gap t1 0 t2).state = DMX_STATE_DATA ∧
    (frameHead h e t0 gap t1 0 t2).current_channel = 1 ∧
    (frameHead h e t0 gap t1 0 t2).dmx_data = store h.dmx_data 0 0 ∧
    (frameHead h e t0 gap t1 0 t2).frame_complete = h.frame_complete ∧
    (frameHead h e t0 gap t1 0 t2).channel_count = h.channel_count := by
  have hg : ¬ sub32 t1 t0 = 0 := by omega
  simp [frameHead, DMX_UART_RxCpltCallback, DMX_UART_ErrorCallback, DMX_ProcessByte,
    DMX_DetectBreak, DMX_START_CODE, hfe, hclean, hgap, hg]

/-- The byte after a break event: `DMX_STATE_START_CODE` when at least one
tick has passed since the break, `DMX_STATE_IDLE` otherwise. -/
theorem gap_byte_state (h : DMX_HandleTypeDef) (e : UartError) (t0 gap t1 : Nat)
    (hfe : e.fe = true) (hclean : (e.pe || e.ne || e.ore) = false) :
    (DMX_UART_RxCpltCallback (DMX_UART_ErrorCallback h e t0) gap t1).state
      = if sub32 t1 t0 ≥ 1 then DMX_STATE_START_CODE else DMX_STATE_IDLE := by
  by_cases hd : sub32 t1 t0 ≥ 1
  · have hg : ¬ sub32 t1 t0 = 0 := by omega
    simp [DMX_UART_RxCpltCallback, DMX_UART_ErrorCallback, DMX_ProcessByte, DMX_DetectBreak,
      hfe, hclean, hd, hg]
  · have hg : sub32 t1 t0 = 0 := by omega
    simp [DMX_UART_RxCpltCallback, DMX_UART_ErrorCallback, DMX_ProcessByte, DMX_DetectBreak,
      hfe, hclean, hg]

/-- From `DMX_STATE_ERROR` received bytes change the state only, and the first
of them sets it to `DMX_STATE_IDLE`. -/
theorem receive_from_error (h : DMX_HandleTypeDef) (hs : h.state = DMX_STATE_ERROR)
    (ds : List (Nat × Nat)) :
    (receive h ds).dmx_data = h.dmx_data ∧
    (receive h ds).frame_complete = h.frame_complete ∧
    (receive h ds).channel_count = h.channel_count ∧
    (ds ≠ [] → (receive h ds).state = DMX_STATE_IDLE) := by
  cases ds with
  | nil => exact ⟨rfl, rfl, rfl, fun hne => absurd rfl hne⟩
  | cons p ds =>
    have h1 : DMX_UART_RxCpltCallback h p.1 p.2 = { h with state := DMX_STATE_IDLE } := by
      simp [DMX_UART_RxCpltCallback, DMX_ProcessByte, hs]
    rw [receive_cons, h1, receive_idle ds _ rfl]
    exact ⟨rfl, rfl, rfl, fun _ => rfl⟩

/-- In `DMX_STATE_DATA` with the buffer full, the next byte ends the frame with
`channel_count = 512`, and later bytes change nothing. -/
theorem receive_overflow_count (h : DMX_HandleTypeDef) (hs : h.state = DMX_STATE_DATA)
    (hc : h.current_channel > 512) (ds : List (Nat × Nat)) (hne : ds ≠ []) :
    (receive h ds).channel_count = 512 := by
  cases ds with
  | nil => exact absurd rfl hne
  | cons p ds =>
    have hnot : ¬ h.current_channel ≤ 512 := by omega
    have h1 : DMX_UART_RxCpltCallback h p.1 p.2
        = { h with channel_count := 512, frame_complete := 1, state := DMX_STATE_IDLE } := by
      simp [DMX_UART_RxCpltCallback, DMX_ProcessByte, DMX_MAX_CHANNELS, hs, hnot]
    rw [receive_cons, h1, receive_idle ds _ rfl]

/-- The store index of `DMX_ProcessByte` is the index its assignments use. -/
theorem processByte_store_index_faithful (h : DMX_HandleTypeDef) (data now : Nat) :
    (DMX_ProcessByte h data now).dmx_data =
      match DMX_ProcessByte_storeIndex h data with
      | some i => store h.dmx_data i data
      | none => h.dmx_data := by
  unfold DMX_ProcessByte DMX_ProcessByte_storeIndex
  cases hst : h.state with
  | DMX_STATE_IDLE => rfl
  | DMX_STATE_BREAK =>
    simp only []
    split <;> rfl
  | DMX_STATE_START_CODE =>
    simp only []
    split <;> rfl
  | DMX_STATE_DATA =>
    simp only []
    by_cases hc : h.current_channel ≤ DMX_MAX_CHANNELS
    · simp only [hc, if_true]
      split <;> rfl
    · simp only [hc, if_false]
  | DMX_STATE_ERROR => rfl

/-- Every store of `DMX_ProcessByte` uses an index of at most 512, in any
state of the handle. -/
theorem processByte_store_index_le (h : DMX_HandleTypeDef) (data i : Nat)
    (hi : DMX_ProcessByte_storeIndex h data = some i) : i ≤ 512 := by
  unfold DMX_ProcessByte_storeIndex at hi
  cases hst : h.state with
  | DMX_STATE_IDLE => simp [hst] at hi
  | DMX_STATE_BREAK => simp [hst] at hi
  | DMX_STATE_START_CODE =>
    simp only [hst] at hi
    split at hi
    · have := Option.some.inj hi
      omega
    · exact absurd hi (by simp)
  | DMX_STATE_DATA =>
    simp only [hst, DMX_MAX_CHANNELS] at hi
    split at hi
    · have := Option.some.inj hi
      omega
    · exact absurd hi (by simp)
  | DMX_STATE_ERROR => simp [hst] at hi

/-- The checked step never takes its out-of-range branch. -/
theorem processByte_checked_some (h : DMX_HandleTypeDef) (data now : Nat) :
    DMX_ProcessByte_checked h data now = some (DMX_ProcessByte h data now) := by
  unfold DMX_ProcessByte_checked
  cases hidx : DMX_ProcessByte_storeIndex h data with
  | none => rfl
  | some i =>
    have hle := processByte_store_index_le h data i hidx
    have hlt : i < 513 := by omega
    simp [hlt]

/-- One event keeps `current_channel` at most 513. -/
theorem step_current_channel_le (h : DMX_HandleTypeDef) (e : Event)
    (hc : h.current_channel ≤ 513) : (step h e).current_channel ≤ 513 := by
  cases e with
  | reset => simp [step, DMX_ResetFrame]
  | error error now =>
    simp only [step, DMX_UART_ErrorCallback]
    by_cases hf : error.fe = true <;>
      by_cases hp : (error.pe || error.ne || error.ore) = true <;> simp [hf, hp, hc]
  | byte data now =>
    simp only [step, DMX_ProcessByte]
    cases hst : h.state with
    | DMX_STATE_IDLE => simpa using hc
    | DMX_STATE_BREAK =>
      simp only []
      split
      · simp
      · simpa using hc
    | DMX_STATE_START_CODE =>
      simp only []
      split
      · simp
      · simpa using hc
    | DMX_STATE_DATA =>
      simp only [DMX_MAX_CHANNELS]
      by_cases hle : h.current_channel ≤ 512
      · simp only [hle, if_true]
        split
        · simp
          omega
        · simp
          omega
      · simp only [hle, if_false]
        exact hc
    | DMX_STATE_ERROR => simpa using hc

/-- Any sequence of events keeps `current_channel` at most 513 and never takes
the out-of-range branch of the checked step. -/
theorem run_bounds (es : List Event) (h : DMX_HandleTypeDef) (hc : h.current_channel ≤ 513) :
    (run h es).current_channel ≤ 513 ∧ runChecked h es = some (run h es) := by
  induction es generalizing h with
  | nil => exact ⟨hc, rfl⟩
  | cons e es ih =>
    obtain ⟨a, b⟩ := ih (step h e) (step_current_channel_le h e hc)
    refine ⟨by rw [handle_run_cons]; exact a, ?_⟩
    have hstep : stepChecked h e = some (step h e) := by
      cases e with
      | reset => rfl
      | error error now => rfl
      | byte data now => exact processByte_checked_some h data now
    simp only [runChecked, hstep, handle_run_cons]
    exact b

end HandleDriver

/-! ## Handle driver: the properties of initialisation, breaks, faults and bounds -/

namespace HandleDriver

open DMX_StateTypeDef

/-- Counterexample to C12 as stated: on a fresh handle, a framing-error event
at tick 7 and the next byte at the same tick 7 leave the decoder in
`DMX_STATE_IDLE`, not in `DMX_STATE_START_CODE`. -/
theorem same_tick_break_counterexample :
    ¬ ((DMX_UART_RxCpltCallback (DMX_UART_ErrorCallback fresh UartError.framing 7) 0 7).state
      = DMX_STATE_START_CODE) := by
  decide

/-- C12, amended: a reported break is accepted when the next byte is processed
at least one tick later.  For every handle state and every pair of tick values
`t0`, `t1`, after `DMX_UART_ErrorCallback` with the framing bit set and no
parity, noise or overrun bit, the next byte processed by `DMX_ProcessByte`
moves the decoder to `DMX_STATE_START_CODE` when `(t1 - t0) mod 2^32 ≥ 1` and
to `DMX_STATE_IDLE` otherwise; in the first case a following start code `0x00`
and data bytes are stored, byte `i` at channel `i` up to channel 512. -/
theorem break_accepted_after_one_tick (h : DMX_HandleTypeDef) (e : UartError)
    (t0 gap t1 t2 : Nat) (ds : List (Nat × Nat))
    (hfe : e.fe = true) (hclean : (e.pe || e.ne || e.ore) = false) :
    (DMX_UART_RxCpltCallback (DMX_UART_ErrorCallback h e t0) gap t1).state
      = (if sub32 t1 t0 ≥ 1 then DMX_STATE_START_CODE else DMX_STATE_IDLE) ∧
    (sub32 t1 t0 ≥ 1 → ∀ i, 1 ≤ i → i ≤ 512 → i ≤ ds.length →
      DMX_GetChannelData (some (receive (frameHead h e t0 gap t1 0 t2) ds)) i
        = (ds.getD (i - 1) (0, 0)).1) := by
  refine ⟨gap_byte_state h e t0 gap t1 hfe hclean, ?_⟩
  intro hgap i h1 h2 h3
  obtain ⟨hs, hc, _, _, _⟩ := frameHead_accept_flags h e t0 gap t1 t2 hfe hclean hgap
  have hi : ¬ (i = 0 ∨ i > 512) := by omega
  simp only [DMX_GetChannelData, DMX_MAX_CHANNELS, hi, if_false]
  rw [receive_data_dmx_data ds _ hs i, hc, if_pos (by omega)]

/-- Witness for C12, amended: a fresh handle, break at tick 7, next byte at
tick 8. -/
theorem break_accepted_after_one_tick_witness :
    UartError.framing.fe = true ∧
    (UartError.framing.pe || UartError.framing.ne || UartError.framing.ore) = false ∧
    (DMX_UART_RxCpltCallback (DMX_UART_ErrorCallback fresh UartError.framing 7) 0 8).state
      = (if sub32 8 7 ≥ 1 then DMX_STATE_START_CODE else DMX_STATE_IDLE) :=
  ⟨rfl, rfl,
    (break_accepted_after_one_tick fresh UartError.framing 7 0 8 8 [(3, 8), (4, 8)] rfl rfl).1⟩

/-- C15: `DMX_Init` returns `HAL_ERROR` exactly when `hdmx` or `huart` is
`NULL`, and then leaves the handle unchanged; otherwise it returns `HAL_OK`
and leaves the receiver in its start state: `DMX_STATE_IDLE`,
`DMX_IsFrameComplete` 0, `break_detected` 0, and `DMX_GetChannelData(ch)` 0 for
every `ch`, all 513 buffer bytes being zero. -/
theorem init_status_and_start_state (hdmx : Option DMX_HandleTypeDef) (huart : Option Nat) :
    ((DMX_Init hdmx huart).1 = HAL_StatusTypeDef.HAL_ERROR ↔ (hdmx = none ∨ huart = none)) ∧
    (hdmx = none ∨ huart = none → (DMX_Init hdmx huart).2 = hdmx) ∧
    (∀ h u, hdmx = some h → huart = some u →
      (DMX_Init hdmx huart).1 = HAL_StatusTypeDef.HAL_OK ∧
      ∃ h1, (DMX_Init hdmx huart).2 = some h1 ∧
        h1.state = DMX_STATE_IDLE ∧
        DMX_IsFrameComplete (some h1) = 0 ∧
        h1.break_detected = 0 ∧
        (∀ ch, DMX_GetChannelData (some h1) ch = 0) ∧
        (∀ j, j < 513 → h1.dmx_data j = 0)) := by
  refine ⟨?_, ?_, ?_⟩
  · cases hdmx with
    | none => simp [DMX_Init]
    | some h =>
      cases huart with
      | none => simp [DMX_Init]
      | some u => simp [DMX_Init]
  · intro hnull
    cases hdmx with
    | none => simp [DMX_Init]
    | some h =>
      cases huart with
      | none => simp [DMX_Init]
      | some u => simp at hnull
  · intro h u hh hu
    subst hh
    subst hu
    refine ⟨rfl, _, rfl, rfl, rfl, rfl, ?_, ?_⟩
    · intro ch
      by_cases hc : ch = 0 ∨ ch > DMX_MAX_CHANNELS
      · simp [DMX_GetChannelData, hc]
      · have hlt : ch < 513 := by
          simp only [DMX_MAX_CHANNELS] at hc
          omega
        simp [DMX_GetChannelData, hc, memset0, hlt]
    · intro j hj
      simp [memset0, hj]

/-- C16: for every handle state, after `DMX_UART_ErrorCallback` reports a
parity, noise or overrun error, every finite sequence of bytes processed by
`DMX_ProcessByte` leaves `dmx_data`, `frame_complete` and `channel_count`
unchanged, and the state is `DMX_STATE_IDLE` from the first such byte on. -/
theorem fault_idles_until_break (h : DMX_HandleTypeDef) (fault : UartError) (t : Nat)
    (p : Nat × Nat) (ds : List (Nat × Nat))
    (hfault : (fault.pe || fault.ne || fault.ore) = true) :
    (receive (DMX_UART_ErrorCallback h fault t) ds).dmx_data = h.dmx_data ∧
    (receive (DMX_UART_ErrorCallback h fault t) ds).frame_complete = h.frame_complete ∧
    (receive (DMX_UART_ErrorCallback h fault t) ds).channel_count = h.channel_count ∧
    (receive (DMX_UART_ErrorCallback h fault t) (p :: ds)).state = DMX_STATE_IDLE := by
  have hst : (DMX_UART_ErrorCallback h fault t).state = DMX_STATE_ERROR ∧
      (DMX_UART_ErrorCallback h fault t).dmx_data = h.dmx_data ∧
      (DMX_UART_ErrorCallback h fault t).frame_complete = h.frame_complete ∧
      (DMX_UART_ErrorCallback h fault t).channel_count = h.channel_count := by
    by_cases hf : fault.fe = true <;> simp [DMX_UART_ErrorCallback, hf, hfault]
  obtain ⟨hs, hd, hfc, hcc⟩ := hst
  obtain ⟨a, b, c, _⟩ := receive_from_error _ hs ds
  obtain ⟨_, _, _, d⟩ := receive_from_error _ hs (p :: ds)
  exact ⟨by rw [a, hd], by rw [b, hfc], by rw [c, hcc], d (by simp)⟩

/-- Witness for C16: a parity fault on a fresh handle, then two bytes. -/
theorem fault_idles_until_break_witness :
    (UartError.parity.pe || UartError.parity.ne || UartError.parity.ore) = true ∧
    (receive (DMX_UART_ErrorCallback fresh UartError.parity 3) [(5, 4), (6, 4)]).state
      = DMX_STATE_IDLE :=
  ⟨rfl, (fault_idles_until_break fresh UartError.parity 3 (5, 4) [(6, 4)] rfl).2.2.2⟩

/-- Counterexample to C18 as stated (k = 1): on a fresh handle, after break,
mark gap, start code `0x00` and one data byte, `channel_count` is 0, not 1. -/
theorem one_slot_channel_count_counterexample :
    ¬ ((receive (frameHead fresh UartError.framing 0 0 1 0 1) [(7, 1)]).channel_count
      = [((7 : Nat), (1 : Nat))].length) := by
  decide

/-- C18, amended: `channel_count` is the number of received channels from the
second data byte on.  For every prior state, after an accepted break and start
code `0x00` followed by `k` data bytes, `channel_count` equals `k` for every
`k` in 2..512 and 512 for every `k > 512`; for `k ≤ 1` it still holds its value
from before the break. -/
theorem channel_count_from_second_slot (h : DMX_HandleTypeDef) (t0 gap t1 t2 : Nat)
    (ds : List (Nat × Nat)) (hgap : sub32 t1 t0 ≥ 1) :
    (receive (frameHead h UartError.framing t0 gap t1 0 t2) ds).channel_count
      = if ds.length ≤ 1 then h.channel_count
        else if ds.length ≤ 512 then ds.length
        else 512 := by
  obtain ⟨hs, hc, _, _, hcc⟩ := frameHead_accept h t0 gap t1 t2 hgap
  by_cases h1 : ds.length ≤ 1
  · rw [if_pos h1]
    match ds, h1 with
    | [], _ => exact hcc
    | [p], _ =>
      rw [receive_cons, receive_nil]
      simp [DMX_UART_RxCpltCallback, DMX_ProcessByte, DMX_MAX_CHANNELS, hs, hc, hcc]
  · rw [if_neg h1]
    by_cases h2 : ds.length ≤ 512
    · rw [if_pos h2]
      obtain ⟨_, _, hfld⟩ := receive_data_fields ds _ hs (by rw [hc]; omega)
      rw [(hfld (by omega) (by rw [hc]; omega)).2, hc]
      omega
    · rw [if_neg h2]
      have hsplit : ds = ds.take 512 ++ ds.drop 512 := (List.take_append_drop 512 ds).symm
      have hlen : (ds.take 512).length = 512 := by
        rw [List.length_take]
        omega
      have hrest : ds.drop 512 ≠ [] := by
        intro hnil
        have := congrArg List.length hnil
        rw [List.length_drop] at this
        simp at this
        omega
      obtain ⟨hs2, hc2, _⟩ := receive_data_fields (ds.take 512) _ hs (by rw [hc, hlen])
      rw [hsplit, receive_append]
      exact receive_overflow_count _ hs2 (by rw [hc2, hc, hlen]; decide) _ hrest

/-- Witness for C18, amended: three data bytes on a fresh handle. -/
theorem channel_count_from_second_slot_witness :
    sub32 1 0 ≥ 1 ∧
    (receive (frameHead fresh UartError.framing 0 0 1 0 1)
      [(7, 1), (8, 1), (9, 1)]).channel_count = 3 :=
  ⟨by decide,
    channel_count_from_second_slot fresh 0 0 1 1 [(7, 1), (8, 1), (9, 1)] (by decide)⟩

/-- C19: in every state reachable from `DMX_Init` by any sequence of
`DMX_ProcessByte`, `DMX_UART_ErrorCallback` and `DMX_ResetFrame` calls,
`current_channel ≤ 513`, every store the next `DMX_ProcessByte` makes to
`dmx_data` uses an index in 0..512, and the sequence with its stores checked
against the 513-byte buffer never takes the out-of-range branch. -/
theorem stores_stay_in_buffer (h0 : DMX_HandleTypeDef) (u : Nat) (es : List Event) :
    (run (initialised h0 u) es).current_channel ≤ 513 ∧
    (∀ data i, DMX_ProcessByte_storeIndex (run (initialised h0 u) es) data = some i →
      i ≤ 512) ∧
    runChecked (initialised h0 u) es = some (run (initialised h0 u) es) := by
  have hinit : (initialised h0 u).current_channel ≤ 513 := by
    simp [initialised, DMX_Init]
  obtain ⟨a, b⟩ := run_bounds es (initialised h0 u) hinit
  exact ⟨a, fun data i hi => processByte_store_index_le _ data i hi, b⟩

end HandleDriver

/-! ## Bare-metal receiver: the output follows slot 3 of the frame -/

namespace BareMetal

theorem bare_receive_nil (s : State) : receive s [] = s := rfl

theorem bare_receive_cons (s : State) (b : Nat) (bs : List Nat) :
    receive s (b :: bs) = receive (USART1_IRQHandler s false true b) bs := rfl

/-- One received byte while the counter stays below 513: the counter moves up
by one, and the byte is latched exactly when the new count is 3. -/
theorem irq_byte_step (s : State) (b : Nat) (hlt : s.dmx_slot + 1 < 513) :
    USART1_IRQHandler s false true b =
      { dmx_slot := s.dmx_slot + 1
        dmx_value := if s.dmx_slot + 1 = 3 then b % 256 else s.dmx_value
        TIM2_CCR1 := if s.dmx_slot + 1 = 3 then b % 256 else s.TIM2_CCR1 } := by
  have hm : (s.dmx_slot + 1) % 2 ^ 16 = s.dmx_slot + 1 := Nat.mod_eq_of_lt (by omega)
  have hge : ¬ s.dmx_slot + 1 ≥ 513 := by omega
  simp only [USART1_IRQHandler, DMX_CHANNEL, hm, Bool.false_eq_true, if_false, if_true]
  by_cases h1 : s.dmx_slot + 1 = 1
  · have h3 : ¬ s.dmx_slot + 1 = 3 := by omega
    simp only [h1, if_true, h3, if_false]
    have : ¬ (1 : Nat) ≥ 513 := by decide
    simp [this]
  · by_cases h3 : s.dmx_slot + 1 = 2 + 1
    · have h3b : s.dmx_slot + 1 = 3 := h3
      simp [h1, h3b]
    · have h3b : ¬ s.dmx_slot + 1 = 3 := h3
      simp [h1, h3, h3b, hge]

/-- The byte that brings the counter to 513 is not latched. -/
theorem irq_last_step (s : State) (b : Nat) (h512 : s.dmx_slot = 512) :
    (USART1_IRQHandler s false true b).dmx_value = s.dmx_value ∧
    (USART1_IRQHandler s false true b).TIM2_CCR1 = s.TIM2_CCR1 := by
  simp [USART1_IRQHandler, DMX_CHANNEL, h512]

/-- A run of bytes that does not pass counter value 513: the output holds the
byte that arrived at count 3, if the run reached it, and is unchanged
otherwise. -/
theorem bare_receive_values (bs : List Nat) (s : State)
    (hfit : s.dmx_slot + bs.length ≤ 513) :
    (receive s bs).dmx_value =
      (if s.dmx_slot < 3 ∧ 3 ≤ s.dmx_slot + bs.length then bs.getD (2 - s.dmx_slot) 0 % 256
       else s.dmx_value) ∧
    (receive s bs).TIM2_CCR1 =
      (if s.dmx_slot < 3 ∧ 3 ≤ s.dmx_slot + bs.length then bs.getD (2 - s.dmx_slot) 0 % 256
       else s.TIM2_CCR1) := by
  induction bs generalizing s with
  | nil =>
    have : ¬ (s.dmx_slot < 3 ∧ 3 ≤ s.dmx_slot + ([] : List Nat).length) := by
      simp only [List.length_nil, Nat.add_zero]
      omega
    simp only [bare_receive_nil, this, if_false, and_self]
  | cons b bs ih =>
    simp only [List.length_cons] at hfit ⊢
    rw [bare_receive_cons]
    by_cases hlast : s.dmx_slot + 1 = 513
    · have hnil : bs = [] := List.length_eq_zero.mp (by omega)
      subst hnil
      have hcond : ¬ (s.dmx_slot < 3 ∧ 3 ≤ s.dmx_slot + (0 + 1)) := by omega
      simp only [bare_receive_nil, List.length_nil, hcond, if_false]
      exact irq_last_step s b (by omega)
    · rw [irq_byte_step s b (by omega)]
      obtain ⟨hv, hc⟩ := ih
        ⟨s.dmx_slot + 1, (if s.dmx_slot + 1 = 3 then b % 256 else s.dmx_value),
          (if s.dmx_slot + 1 = 3 then b % 256 else s.TIM2_CCR1)⟩ (by simp; omega)
      simp only [] at hv hc
      rw [hv, hc]
      by_cases h2 : s.dmx_slot = 2
      · have c1 : ¬ (s.dmx_slot + 1 < 3 ∧ 3 ≤ s.dmx_slot + 1 + bs.length) := by omega
        have c2 : s.dmx_slot < 3 ∧ 3 ≤ s.dmx_slot + (bs.length + 1) := by omega
        have c3 : s.dmx_slot + 1 = 3 := by omega
        have e0 : 2 - s.dmx_slot = 0 := by omega
        rw [if_neg c1, if_neg c1, if_pos c3, if_pos c3, if_pos c2, if_pos c2, e0,
          List.getD_cons_zero]
        exact ⟨rfl, rfl⟩
      · have c3 : ¬ s.dmx_slot + 1 = 3 := by omega
        by_cases hcond : s.dmx_slot + 1 < 3 ∧ 3 ≤ s.dmx_slot + 1 + bs.length
        · have c2 : s.dmx_slot < 3 ∧ 3 ≤ s.dmx_slot + (bs.length + 1) := by omega
          have e : 2 - s.dmx_slot = (2 - (s.dmx_slot + 1)) + 1 := by omega
          simp only [hcond, c2, and_self, if_true]
          rw [e, List.getD_cons_succ]
        · have c2 : ¬ (s.dmx_slot < 3 ∧ 3 ≤ s.dmx_slot + (bs.length + 1)) := by omega
          simp only [hcond, c2, c3, if_false, and_self]

/-- C14: for every prior state, every start code `sc` and all bytes `b1..bk`
with `2 ≤ k ≤ 512`, after `USART1_IRQHandler` handles a framing error and then
the received bytes `sc, b1, ..., bk` in order, `dmx_value` and `TIM2->CCR1`
both equal `b2`; and after any initial part of those bytes they hold their
prior values while at most two bytes (`sc`, `b1`) have arrived and `b2` from
the third byte on, so that only `b2` changes them. -/
theorem output_follows_channel_two (s : State) (rxne : Bool) (dr0 sc : Nat) (bs : List Nat)
    (hk : 2 ≤ bs.length) (hk2 : bs.length ≤ 512) (hb : bs.getD 1 0 < 256) :
    (receive (USART1_IRQHandler s true rxne dr0) (sc :: bs)).dmx_value = bs.getD 1 0 ∧
    (receive (USART1_IRQHandler s true rxne dr0) (sc :: bs)).TIM2_CCR1 = bs.getD 1 0 ∧
    ∀ pre post, sc :: bs = pre ++ post →
      (receive (USART1_IRQHandler s true rxne dr0) pre).dmx_value
        = (if pre.length ≤ 2 then s.dmx_value else bs.getD 1 0) ∧
      (receive (USART1_IRQHandler s true rxne dr0) pre).TIM2_CCR1
        = (if pre.length ≤ 2 then s.TIM2_CCR1 else bs.getD 1 0) := by
  have hbrk : USART1_IRQHandler s true rxne dr0 = { s with dmx_slot := 0 } := by
    simp [USART1_IRQHandler]
  have hpre : ∀ pre post, sc :: bs = pre ++ post →
      (receive (USART1_IRQHandler s true rxne dr0) pre).dmx_value
        = (if pre.length ≤ 2 then s.dmx_value else bs.getD 1 0) ∧
      (receive (USART1_IRQHandler s true rxne dr0) pre).TIM2_CCR1
        = (if pre.length ≤ 2 then s.TIM2_CCR1 else bs.getD 1 0) := by
    intro pre post hsplit
    have hlen : pre.length + post.length = bs.length + 1 := by
      have := congrArg List.length hsplit
      simp only [List.length_cons, List.length_append] at this
      omega
    obtain ⟨hv, hc⟩ := bare_receive_values pre { s with dmx_slot := 0 } (by simp; omega)
    rw [hbrk, hv, hc]
    simp only [Nat.zero_add, Nat.sub_zero]
    by_cases h2 : pre.length ≤ 2
    · have c1 : ¬ (0 < 3 ∧ 3 ≤ pre.length) := by omega
      simp only [c1, h2, if_false, if_true, and_self]
    · have c1 : 0 < 3 ∧ 3 ≤ pre.length := by omega
      have hget : pre.getD 2 0 = bs.getD 1 0 := by
        have h1 : (pre ++ post).getD 2 0 = pre.getD 2 0 := List.getD_append _ _ _ _ (by omega)
        rw [← h1, ← hsplit, List.getD_cons_succ]
      simp only [c1, h2, if_false, if_true, and_self, hget, Nat.mod_eq_of_lt hb]
  obtain ⟨a, b⟩ := hpre (sc :: bs) [] (by simp)
  have hlen3 : ¬ (sc :: bs).length ≤ 2 := by
    simp only [List.length_cons]
    omega
  rw [if_neg hlen3] at a b
  exact ⟨a, b, hpre⟩

/-- Witness for C14: start code 0 and the data bytes 10, 20, 30 after a break,
from the initial variables. -/
theorem output_follows_channel_two_witness :
    2 ≤ [(10 : Nat), 20, 30].length ∧ [(10 : Nat), 20, 30].length ≤ 512 ∧
    [(10 : Nat), 20, 30].getD 1 0 < 256 ∧
    (receive (USART1_IRQHandler initial true true 0) (0 :: [10, 20, 30])).dmx_value
      = [(10 : Nat), 20, 30].getD 1 0 :=
  ⟨by decide, by decide, by decide,
    (output_follows_channel_two initial true 0 0 [10, 20, 30] (by decide) (by decide)
      (by decide)).1⟩

end BareMetal

/-! ## Double-buffer driver: publication by `DMX512_Process` -/

namespace DoubleBuffer

open DMX_State_t

/-- Counterexample to C17 as stated: after `DMX512_Init`, a break, the mark-gap
byte at tick 0, the start code and two data bytes, `DMX512_Process` at tick 0
publishes the frame; a second `DMX512_Process` at tick 2000, with no new
bytes, finds the timeout exceeded and resets the decoder, so it does change
the driver state. -/
theorem second_process_counterexample :
    ¬ (DMX512_Process (DMX512_Process (run started openFrameTrace) 0) 2000
      = DMX512_Process (run started openFrameTrace) 0) := by
  intro heq
  have hst := congrArg DMX_Handle_t.state heq
  revert hst
  decide

/-- With `data_received` clear, `DMX512_Process` copies nothing, and inside
the silence timeout it changes nothing at all. -/
theorem process_without_data (u : DMX_Handle_t) (t : Nat) (hr : u.data_received = 0) :
    (DMX512_Process u t).dmx_data = u.dmx_data ∧
    (DMX512_Process u t).new_dmx_data = u.new_dmx_data ∧
    (DMX512_Process u t).data_received = 0 ∧
    (sub32 t u.last_break_time ≤ 1000 → DMX512_Process u t = u) := by
  by_cases ht : sub32 t u.last_break_time > 1000
  · refine ⟨?_, ?_, ?_, fun hle => absurd ht (by omega)⟩ <;>
      simp [DMX512_Process, DMX512_Reset, ht, hr]
  · refine ⟨?_, ?_, ?_, fun _ => ?_⟩ <;> simp [DMX512_Process, ht, hr]

/-- C17, amended: `DMX512_Process` copies the received frame to the active
buffer.  For every prior state, every `k` with `2 ≤ k ≤ 512` and all bytes
`b1..bk`, after a framing-error event, one mark-gap byte, start code `0x00`,
the data bytes and then `DMX512_Process` at any tick,
`DMX512_GetChannelValue(i)` returns `b_i` for every `i` in 1..k and 0 for every
`i` in k+1..512, and `data_received` is cleared, so that a second
`DMX512_Process` with no new bytes copies nothing: the two buffers,
`data_received` and every `DMX512_GetChannelValue(i)` stay as they are, and the
whole state is unchanged when the second call comes within the silence
timeout. -/
theorem process_publishes_frame (s : DMX_Handle_t) (e1 : UartError)
    (gap t1 t2 t3 t4 : Nat) (ds : List (Nat × Nat))
    (h1 : e1.fe = true) (hk2 : 2 ≤ ds.length) (hk : ds.length ≤ 512) :
    (∀ i, 1 ≤ i → i ≤ 512 →
      DMX512_GetChannelValue
        (run s ([Event.error e1, Event.rx gap t1, Event.rx 0 t2]
          ++ rxEvents ds ++ [Event.process t3])) i
        = if i ≤ ds.length then (ds.getD (i - 1) (0, 0)).1 else 0) ∧
    (run s ([Event.error e1, Event.rx gap t1, Event.rx 0 t2]
      ++ rxEvents ds ++ [Event.process t3])).data_received = 0 ∧
    (∀ i, DMX512_GetChannelValue (DMX512_Process
        (run s ([Event.error e1, Event.rx gap t1, Event.rx 0 t2]
          ++ rxEvents ds ++ [Event.process t3])) t4) i
      = DMX512_GetChannelValue
        (run s ([Event.error e1, Event.rx gap t1, Event.rx 0 t2]
          ++ rxEvents ds ++ [Event.process t3])) i) ∧
    (DMX512_Process
        (run s ([Event.error e1, Event.rx gap t1, Event.rx 0 t2]
          ++ rxEvents ds ++ [Event.process t3])) t4).new_dmx_data
      = (run s ([Event.error e1, Event.rx gap t1, Event.rx 0 t2]
          ++ rxEvents ds ++ [Event.process t3])).new_dmx_data ∧
    (DMX512_Process
        (run s ([Event.error e1, Event.rx gap t1, Event.rx 0 t2]
          ++ rxEvents ds ++ [Event.process t3])) t4).data_received = 0 ∧
    (sub32 t4 (run s ([Event.error e1, Event.rx gap t1, Event.rx 0 t2]
          ++ rxEvents ds ++ [Event.process t3])).last_break_time ≤ 1000 →
      DMX512_Process
        (run s ([Event.error e1, Event.rx gap t1, Event.rx 0 t2]
          ++ rxEvents ds ++ [Event.process t3])) t4
      = run s ([Event.error e1, Event.rx gap t1, Event.rx 0 t2]
          ++ rxEvents ds ++ [Event.process t3])) := by
  have hrun : run s ([Event.error e1, Event.rx gap t1, Event.rx 0 t2]
        ++ rxEvents ds ++ [Event.process t3])
      = DMX512_Process (run (run s [Event.error e1, Event.rx gap t1, Event.rx 0 t2])
          (rxEvents ds)) t3 := by
    rw [run_append, run_append]
    rfl
  rw [hrun, run_frame_head s e1 gap t1 t2 h1]
  obtain ⟨_, _, _, _, hr, hn⟩ := run_data_bytes ds
    { s with
      state := DMX_STATE_DATA
      channel_count := 0
      new_dmx_data := memset0 s.new_dmx_data DMX_CHANNELS
      break_detected := 0
      last_break_time := t1 } rfl (by simp; omega)
  have hr1 := hr (by omega) (by simp; omega)
  have hcleared : ∀ v : DMX_Handle_t, v.data_received = 1 →
      (DMX512_Process v t3).data_received = 0 := by
    intro v hv
    by_cases ht : sub32 t3 v.last_break_time > 1000 <;>
      simp [DMX512_Process, DMX512_Reset, ht, hv]
  have hzero := hcleared _ hr1
  obtain ⟨pa, pb, pc, pd⟩ := process_without_data _ t4 hzero
  refine ⟨?_, hzero, ?_, pb, pc, pd⟩
  · intro i hi1 hi2
    have hlt : i - 1 < 512 := by omega
    have hn1 := hn (i - 1)
    simp only [Nat.zero_le, true_and, Nat.zero_add, Nat.sub_zero] at hn1
    rw [getChannelValue_in_range _ i hi1 hi2, process_dmx_data, hr1]
    simp only [ne_eq, one_ne_zero, not_false_eq_true, if_true, memcpy]
    have hlt2 : i - 1 < DMX_CHANNELS := hlt
    rw [if_pos hlt2, hn1]
    have hiff : (i - 1 < ds.length) ↔ (i ≤ ds.length) := by omega
    simp only [hiff, memset0, hlt2, if_true]
  · intro i
    simp only [DMX512_GetChannelValue, pa]

/-- Witness for C17, amended: two data bytes after `DMX512_Init`, published at
tick 0; channel 2 reads 9. -/
theorem process_publishes_frame_witness :
    UartError.framing.fe = true ∧ 2 ≤ [((7 : Nat), (0 : Nat)), (9, 0)].length ∧
    [((7 : Nat), (0 : Nat)), (9, 0)].length ≤ 512 ∧
    DMX512_GetChannelValue
      (run started ([Event.error UartError.framing, Event.rx 0 0, Event.rx 0 0]
        ++ rxEvents [(7, 0), (9, 0)] ++ [Event.process 0])) 2 = 9 :=
  ⟨rfl, by decide, by decide,
    (process_publishes_frame started UartError.framing 0 0 0 0 0 [(7, 0), (9, 0)] rfl
      (by decide) (by decide)).1 2 (by decide) (by decide)⟩

end DoubleBuffer

/-! ## Handle driver: the elapsed-time test of `DMX_DetectBreak` -/

namespace HandleDriver

open DMX_StateTypeDef

/-- The `uint32_t` difference is the integer difference reduced modulo `2^32`. -/
theorem sub32_eq_int_emod (a b : Nat) :
    ((sub32 a b : Nat) : Int) = ((a : Int) - (b : Int)) % 4294967296 := by
  unfold sub32
  omega

/-- When `d < 2^32` ticks have passed since tick `t0`, the `uint32_t`
difference of the wrapped counter and `t0` is `d`. -/
theorem sub32_elapsed (t0 d : Nat) (hd : d < 2 ^ 32) :
    sub32 ((t0 + d) % 2 ^ 32) t0 = d := by
  unfold sub32
  omega

/-- C21: for every handle and every tick value `now`, `DMX_DetectBreak`
returns 1 exactly when `break_detected ≠ 0` and the integer difference
`now - break_timestamp` reduced modulo `2^32` is at least 1, and 0 otherwise.
The test is right across a wrap of the tick counter: with 32-bit ticks and
`now < break_timestamp` it returns 1 when a break is flagged, and after a
framing-error event at tick `t0` it returns 1 exactly when the `d < 2^32`
ticks that have passed, with the counter at `(t0 + d) mod 2^32`, are at
least 1. -/
theorem detect_break_elapsed (h : DMX_HandleTypeDef) (now : Nat) :
    (DMX_DetectBreak h now = 1 ↔
      (h.break_detected ≠ 0 ∧ ((now : Int) - (h.break_timestamp : Int)) % 4294967296 ≥ 1)) ∧
    (DMX_DetectBreak h now = 1 ∨ DMX_DetectBreak h now = 0) ∧
    (now < h.break_timestamp → h.break_timestamp < 2 ^ 32 → h.break_detected ≠ 0 →
      DMX_DetectBreak h now = 1) ∧
    (∀ (e : UartError) (t0 d : Nat), e.fe = true → d < 2 ^ 32 →
      DMX_DetectBreak (DMX_UART_ErrorCallback h e t0) ((t0 + d) % 2 ^ 32)
        = if d ≥ 1 then 1 else 0) := by
  have hint := sub32_eq_int_emod now h.break_timestamp
  refine ⟨?_, ?_, ?_, ?_⟩
  · unfold DMX_DetectBreak
    by_cases hb : h.break_detected = 0
    · simp [hb]
    · by_cases hs : sub32 now h.break_timestamp ≥ 1
      · have hge : ((now : Int) - (h.break_timestamp : Int)) % 4294967296 ≥ 1 := by omega
        simp [hb, hs, hge]
      · have hlt : ¬ ((now : Int) - (h.break_timestamp : Int)) % 4294967296 ≥ 1 := by omega
        simp only [hb, hs, if_false, ne_eq, not_false_eq_true, true_and]
        constructor
        · intro h01
          exact absurd h01 (by decide)
        · intro hge
          exact absurd hge hlt
  · unfold DMX_DetectBreak
    by_cases hb : h.break_detected = 0
    · simp [hb]
    · by_cases hs : sub32 now h.break_timestamp ≥ 1 <;> simp [hb, hs]
  · intro hwrap hts hb
    have hs : sub32 now h.break_timestamp ≥ 1 := by
      unfold sub32
      omega
    simp [DMX_DetectBreak, hb, hs]
  · intro e t0 d hfe hd
    have hfields : (DMX_UART_ErrorCallback h e t0).break_detected = 1 ∧
        (DMX_UART_ErrorCallback h e t0).break_timestamp = t0 := by
      by_cases hp : (e.pe || e.ne || e.ore) = true <;> simp [DMX_UART_ErrorCallback, hfe, hp]
    unfold DMX_DetectBreak
    rw [hfields.1, hfields.2, sub32_elapsed t0 d hd]
    simp

end HandleDriver
